import Mathlib

/-!
Shallow embedding, in Lean 4, of the core rating-and-caching pipeline of the
rating_app repository (src/models/resource.py, src/core/rating_calculator.py,
src/core/data_processor.py, src/core/metrics_collector.py,
src/core/rating_service.py, src/utils/cache_manager.py), together with proofs
about the embedded code.

Modelling conventions:
- Python runtime values (the contents of the heterogeneous dicts the code
  passes around) are embedded as the inductive type Val.
- Python numbers (int and float alike) are embedded as rationals.  All the
  numeric literals appearing in the source (0.25, 0.5, 206.835, ...) are
  exactly representable, and every claim proved here is about clamping,
  guards, equalities of exactly representable values, or determinism, none of
  which distinguishes rational from IEEE-754 evaluation at the inputs used.
- datetime values are embedded as integer timestamps (seconds).  A string
  produced by datetime.isoformat is embedded as the constructor Val.vtime t:
  such a string is always non-empty (hence truthy) and always parses back,
  via datetime.fromisoformat, to the same timestamp.  User-supplied date
  strings are ordinary Val.vstr values and are parsed by the executable model
  parser parseIntStr (the stdlib ISO-8601 grammar itself is external library
  code; what the repository relies on is parse success/failure and the
  round-trip property, which the model preserves).
- The functions of the external text-analytics library (nltk word_tokenize,
  sent_tokenize, the stopword list) are parameters of the pipeline, bundled
  in the structure Externals; the spec treats text analytics as an external
  collaborator producing an opaque bundle.
- File-system effects of the cache are modelled by explicit state
  (CacheState) and an explicit disk image for load-time rehydration; the
  threading lock is the identity in this single-threaded model.
- Exceptions are modelled by Except Err; a raised exception propagating out
  of a Python function is an Except.error result.
-/

unseal Rat.mul Rat.add Rat.sub Rat.inv Rat.ofScientific

namespace RatingApp

/-- Embedding of Python runtime values: None, bool, numbers (int and float as
rationals), str, datetime-isoformat strings (vtime, carrying the timestamp
they render), list, and dict (association list in insertion order). -/
inductive Val where
  | vnone
  | vbool (b : Bool)
  | vnum (q : ℚ)
  | vstr (s : String)
  | vtime (t : Int)
  | vlist (xs : List Val)
  | vdict (xs : List (String × Val))
  deriving Inhabited, Repr

mutual

/-- Structural boolean equality on embedded Python values. -/
def Val.beq : Val → Val → Bool
  | .vnone, .vnone => true
  | .vbool a, .vbool b => a == b
  | .vnum a, .vnum b => a == b
  | .vstr a, .vstr b => a == b
  | .vtime a, .vtime b => a == b
  | .vlist a, .vlist b => Val.beqList a b
  | .vdict a, .vdict b => Val.beqPairs a b
  | _, _ => false

/-- Pointwise boolean equality on lists of values. -/
def Val.beqList : List Val → List Val → Bool
  | [], [] => true
  | a :: as, b :: bs => Val.beq a b && Val.beqList as bs
  | _, _ => false

/-- Pointwise boolean equality on dict entry lists. -/
def Val.beqPairs : List (String × Val) → List (String × Val) → Bool
  | [], [] => true
  | (k, v) :: as, (k', v') :: bs => k == k' && Val.beq v v' && Val.beqPairs as bs
  | _, _ => false

end

mutual

/-- Reflexivity of Val.beq. -/
def Val.beq_refl : (a : Val) → Val.beq a a = true
  | .vnone => rfl
  | .vbool b => by simp [Val.beq]
  | .vnum q => by simp [Val.beq]
  | .vstr s => by simp [Val.beq]
  | .vtime t => by simp [Val.beq]
  | .vlist xs => by simp [Val.beq, Val.beqList_refl xs]
  | .vdict xs => by simp [Val.beq, Val.beqPairs_refl xs]

/-- Reflexivity of Val.beqList. -/
def Val.beqList_refl : (xs : List Val) → Val.beqList xs xs = true
  | [] => rfl
  | a :: as => by simp [Val.beqList, Val.beq_refl a, Val.beqList_refl as]

/-- Reflexivity of Val.beqPairs. -/
def Val.beqPairs_refl : (xs : List (String × Val)) → Val.beqPairs xs xs = true
  | [] => rfl
  | (k, v) :: as => by simp [Val.beqPairs, Val.beq_refl v, Val.beqPairs_refl as]

end

mutual

/-- Soundness of Val.beq with respect to propositional equality. -/
def Val.beq_sound : (a b : Val) → Val.beq a b = true → a = b
  | .vnone, .vnone, _ => rfl
  | .vbool _, .vbool _, h => by simp [Val.beq] at h; simp [h]
  | .vnum _, .vnum _, h => by simp [Val.beq] at h; simp [h]
  | .vstr _, .vstr _, h => by simp [Val.beq] at h; simp [h]
  | .vtime _, .vtime _, h => by simp [Val.beq] at h; simp [h]
  | .vlist a, .vlist b, h => by
      simp only [Val.beq] at h
      simp [Val.beqList_sound a b h]
  | .vdict a, .vdict b, h => by
      simp only [Val.beq] at h
      simp [Val.beqPairs_sound a b h]
  | .vnone, .vbool _, h => nomatch h
  | .vnone, .vnum _, h => nomatch h
  | .vnone, .vstr _, h => nomatch h
  | .vnone, .vtime _, h => nomatch h
  | .vnone, .vlist _, h => nomatch h
  | .vnone, .vdict _, h => nomatch h
  | .vbool _, .vnone, h => nomatch h
  | .vbool _, .vnum _, h => nomatch h
  | .vbool _, .vstr _, h => nomatch h
  | .vbool _, .vtime _, h => nomatch h
  | .vbool _, .vlist _, h => nomatch h
  | .vbool _, .vdict _, h => nomatch h
  | .vnum _, .vnone, h => nomatch h
  | .vnum _, .vbool _, h => nomatch h
  | .vnum _, .vstr _, h => nomatch h
  | .vnum _, .vtime _, h => nomatch h
  | .vnum _, .vlist _, h => nomatch h
  | .vnum _, .vdict _, h => nomatch h
  | .vstr _, .vnone, h => nomatch h
  | .vstr _, .vbool _, h => nomatch h
  | .vstr _, .vnum _, h => nomatch h
  | .vstr _, .vtime _, h => nomatch h
  | .vstr _, .vlist _, h => nomatch h
  | .vstr _, .vdict _, h => nomatch h
  | .vtime _, .vnone, h => nomatch h
  | .vtime _, .vbool _, h => nomatch h
  | .vtime _, .vnum _, h => nomatch h
  | .vtime _, .vstr _, h => nomatch h
  | .vtime _, .vlist _, h => nomatch h
  | .vtime _, .vdict _, h => nomatch h
  | .vlist _, .vnone, h => nomatch h
  | .vlist _, .vbool _, h => nomatch h
  | .vlist _, .vnum _, h => nomatch h
  | .vlist _, .vstr _, h => nomatch h
  | .vlist _, .vtime _, h => nomatch h
  | .vlist _, .vdict _, h => nomatch h
  | .vdict _, .vnone, h => nomatch h
  | .vdict _, .vbool _, h => nomatch h
  | .vdict _, .vnum _, h => nomatch h
  | .vdict _, .vstr _, h => nomatch h
  | .vdict _, .vtime _, h => nomatch h
  | .vdict _, .vlist _, h => nomatch h

/-- Soundness of Val.beqList. -/
def Val.beqList_sound : (a b : List Val) → Val.beqList a b = true → a = b
  | [], [], _ => rfl
  | x :: xs, y :: ys, h => by
      simp only [Val.beqList, Bool.and_eq_true] at h
      simp [Val.beq_sound x y h.1, Val.beqList_sound xs ys h.2]
  | [], _ :: _, h => nomatch h
  | _ :: _, [], h => nomatch h

/-- Soundness of Val.beqPairs. -/
def Val.beqPairs_sound : (a b : List (String × Val)) → Val.beqPairs a b = true → a = b
  | [], [], _ => rfl
  | (k, v) :: xs, (k', v') :: ys, h => by
      simp only [Val.beqPairs, Bool.and_eq_true] at h
      obtain ⟨⟨h1, h2⟩, h3⟩ := h
      simp only [beq_iff_eq] at h1
      simp [h1, Val.beq_sound v v' h2, Val.beqPairs_sound xs ys h3]
  | [], _ :: _, h => nomatch h
  | _ :: _, [], h => nomatch h

end

instance : BEq Val := ⟨Val.beq⟩

instance : LawfulBEq Val where
  eq_of_beq h := Val.beq_sound _ _ h
  rfl := Val.beq_refl _

instance : DecidableEq Val := fun a b =>
  if h : Val.beq a b = true then isTrue (Val.beq_sound a b h)
  else isFalse (fun he => h (he ▸ Val.beq_refl a))

/-- Exceptions of the embedded Python code. -/
inductive Err where
  | keyError (k : String)
  | valueError (m : String)
  | typeError (m : String)
  | attrError (m : String)
  deriving DecidableEq, Repr, Inhabited

/-- Python truthiness of an embedded value (bool(v)).  An isoformat string is
always non-empty, hence truthy. -/
def pyTruthy : Val → Bool
  | .vnone => false
  | .vbool b => b
  | .vnum q => decide (q ≠ 0)
  | .vstr s => decide (s ≠ "")
  | .vtime _ => true
  | .vlist xs => decide (xs ≠ [])
  | .vdict xs => decide (xs ≠ [])

/-- Python min of two numbers: returns the first argument on ties. -/
def pymin (a b : ℚ) : ℚ := if b < a then b else a

/-- Python max of two numbers: returns the first argument on ties. -/
def pymax (a b : ℚ) : ℚ := if b > a then b else a

/-- Dict lookup (first binding wins; Python dict keys are unique). -/
def dget : List (String × Val) → String → Option Val
  | [], _ => none
  | (k', v) :: rest, k => if k' = k then some v else dget rest k

/-- Python d.get(k, dflt). -/
def dgetD (d : List (String × Val)) (k : String) (dflt : Val) : Val :=
  (dget d k).getD dflt

/-- Python d[k]: raises KeyError when the key is absent. -/
def pyIndex (d : List (String × Val)) (k : String) : Except Err Val :=
  match dget d k with
  | some v => .ok v
  | none => .error (.keyError k)

/-- Python key-membership test (k in d). -/
def hasKey (d : List (String × Val)) (k : String) : Bool :=
  (dget d k).isSome

/-- Dict update d[k] = v: replaces the first binding of k in place, else
appends at the end, exactly as CPython dicts preserve insertion order. -/
def dset : List (String × Val) → String → Val → List (String × Val)
  | [], k, v => [(k, v)]
  | (k', v') :: rest, k, v =>
      if k' = k then (k, v) :: rest else (k', v') :: dset rest k v

/-- Python dict merge d.update(u) (also the semantics of the expansion
left-to-right in a dict display): each binding of u is written into d. -/
def dmerge (d u : List (String × Val)) : List (String × Val) :=
  u.foldl (fun acc p => dset acc p.1 p.2) d

/-- Association-list update used for the Resource.scores mapping. -/
def assocSet : List (String × ℚ) → String → ℚ → List (String × ℚ)
  | [], k, v => [(k, v)]
  | (k', v') :: rest, k, v =>
      if k' = k then (k, v) :: rest else (k', v') :: assocSet rest k v

/-- Association-list lookup for score mappings. -/
def assocGet : List (String × ℚ) → String → Option ℚ
  | [], _ => none
  | (k', v) :: rest, k => if k' = k then some v else assocGet rest k

/-- ASCII lower-casing of one character, the fragment of str.lower the
repository's inputs exercise. -/
def lowerChar (c : Char) : Char :=
  if 'A' ≤ c ∧ c ≤ 'Z' then Char.ofNat (c.toNat + 32) else c

/-- ASCII upper-casing of one character. -/
def upperChar (c : Char) : Char :=
  if 'a' ≤ c ∧ c ≤ 'z' then Char.ofNat (c.toNat - 32) else c

/-- Model of str.lower. -/
def pyLower (s : String) : String := String.mk (s.data.map lowerChar)

/-- Python str whitespace (the ASCII fragment). -/
def isWs (c : Char) : Bool :=
  c = ' ' ∨ c = '\t' ∨ c = '\n' ∨ c = '\r' ∨ c = '\x0b' ∨ c = '\x0c'

/-- Model of str.strip with no argument: removes leading and trailing
whitespace. -/
def pyStrip (s : String) : String :=
  String.mk (((s.data.dropWhile isWs).reverse.dropWhile isWs).reverse)

/-- Model of str.split with no argument: splits on whitespace runs and never
produces empty fragments. -/
def pySplitWs (s : String) : List String :=
  go (s.data.length + 1) s.data
where
  /-- Fuelled splitting loop; the fuel dominates the input length. -/
  go : Nat → List Char → List String
  | 0, _ => []
  | _ + 1, [] => []
  | fuel + 1, c :: rest =>
      if isWs c then go fuel rest
      else
        let tok := (c :: rest).takeWhile (fun ch => ¬ isWs ch)
        String.mk tok :: go fuel ((c :: rest).dropWhile (fun ch => ¬ isWs ch))

/-- Model of sep.join(parts). -/
def pyJoin (sep : String) : List String → String
  | [] => ""
  | [x] => x
  | x :: xs => x ++ sep ++ pyJoin sep xs

/-- Executable decimal integer parser: the model of the external
datetime.fromisoformat applied to a user-supplied Val.vstr date string (see
the module docstring). -/
def parseIntStr (s : String) : Option Int :=
  match s.data with
  | '-' :: ds => (digits ds).map (fun n => -(n : Int))
  | ds => (digits ds).map (fun n => (n : Int))
where
  /-- Digit-run parser returning none on the empty string or non-digits. -/
  digits : List Char → Option Nat
  | [] => none
  | ds =>
      if ds.all (fun c => '0' ≤ c ∧ c ≤ '9') then
        some (ds.foldl (fun acc c => acc * 10 + (c.toNat - 48)) 0)
      else none

/-- Model of str.replace(pat, repl) for a single-character pattern, the shape
used by the source (replacing the letter Z in a date string).  On a vtime
value (a naive isoformat string, which never contains Z) it is the
identity. -/
def pyReplaceChar (pat : Char) (repl : String) (s : String) : String :=
  String.mk (s.data.foldr (fun c acc => if c = pat then repl.data ++ acc else c :: acc) [])

/-- Model of datetime.isoformat of the embedded timestamp t: the resulting
string is represented by the token Val.vtime t. -/
def isoformat (t : Int) : Val := .vtime t

/-- Model of datetime.fromisoformat(x.replace(Z, +00:00)) as used by
Resource.from_dict and DataProcessor: parses an isoformat token back to its
timestamp, parses a plain string with the model parser, and raises
AttributeError on non-strings (which lack the replace method). -/
def fromIsoVal : Val → Except Err Int
  | .vtime t => .ok t
  | .vstr s =>
      match parseIntStr (pyReplaceChar 'Z' "+00:00" s) with
      | some t => .ok t
      | none => .error (.valueError "Invalid isoformat string")
  | _ => .error (.attrError "replace")

/-- Python str(v) as used in f-strings by Resource._generate_id.  Every value
the repository ever formats there is a string (or an isoformat date); the
renderings of the remaining constructors are simple stand-ins for CPython's
repr-based forms, which no theorem in this file exercises. -/
def pyStr : Val → String
  | .vnone => "None"
  | .vbool b => if b then "True" else "False"
  | .vnum q => if q.den = 1 then toString q.num else toString q.num ++ "/" ++ toString q.den
  | .vstr s => s
  | .vtime t => toString t
  | .vlist _ => "[...]"
  | .vdict _ => "\x7b...\x7d"

/-- JSON string escaping as performed by json.dumps with default options on
the character sets the repository serializes: quote and backslash are
escaped with a backslash, the common control characters use their two-glyph
escapes, remaining control characters use a six-glyph unicode escape, and
everything else is copied verbatim. -/
def jsonEscape (c : Char) : List Char :=
  if c = '\x22' then ['\\', '\x22']
  else if c = '\\' then ['\\', '\\']
  else if c = '\n' then ['\\', 'n']
  else if c = '\t' then ['\\', 't']
  else if c = '\r' then ['\\', 'r']
  else if c.toNat < 32 then ['\\', 'u', '0', '0', '0', '0']
  else [c]

/-- Serialization of a string literal as json.dumps renders it. -/
def jsonStr (s : String) : String :=
  "\x22" ++ String.mk (s.data.foldr (fun c acc => jsonEscape c ++ acc) []) ++ "\x22"

mutual

/-- Model of json.dumps with the default separators.  Numbers are rendered
from their rational embedding (integers exactly as CPython would; a
non-integer rational uses a slash form standing in for the float repr, a
rendering no theorem depends on beyond its being some definite string);
vtime values render as the quoted isoformat string they embed. -/
def jsonDumps : Val → String
  | .vnone => "null"
  | .vbool b => if b then "true" else "false"
  | .vnum q => if q.den = 1 then toString q.num else toString q.num ++ "/" ++ toString q.den
  | .vstr s => jsonStr s
  | .vtime t => jsonStr (toString t)
  | .vlist xs => "[" ++ jsonDumpsList xs ++ "]"
  | .vdict xs => "\x7b" ++ jsonDumpsPairs xs ++ "\x7d"

/-- Comma-joined serialization of a JSON array body. -/
def jsonDumpsList : List Val → String
  | [] => ""
  | [x] => jsonDumps x
  | x :: xs => jsonDumps x ++ ", " ++ jsonDumpsList xs

/-- Comma-joined serialization of a JSON object body. -/
def jsonDumpsPairs : List (String × Val) → String
  | [] => ""
  | [(k, v)] => jsonStr k ++ ": " ++ jsonDumps v
  | (k, v) :: xs => jsonStr k ++ ": " ++ jsonDumps v ++ ", " ++ jsonDumpsPairs xs

end

/-- Serialized size in characters, len(json.dumps(data)), the measure the
cache manager uses for its byte budget. -/
def jsonSize (v : Val) : Nat := (jsonDumps v).length

/-! SHA-256, as used by hashlib.sha256 in Resource._generate_id.  Words are
naturals reduced modulo 2^32 after every arithmetic step. -/

/-- Word size modulus for SHA-256 arithmetic. -/
def w32 : Nat := 4294967296

/-- Right rotation of a 32-bit word. -/
def rotr32 (n x : Nat) : Nat := ((x >>> n) ||| (x <<< (32 - n))) % w32

/-- SHA-256 initial hash values. -/
def shaH0 : List Nat :=
  [1779033703, 3144134277, 1013904242, 2773480762,
   1359893119, 2600822924, 528734635, 1541459225]

/-- SHA-256 round constants. -/
def shaK : List Nat :=
  [1116352408, 1899447441, 3049323471, 3921009573, 961987163, 1508970993,
   2453635748, 2870763221, 3624381080, 310598401, 607225278, 1426881987,
   1925078388, 2162078206, 2614888103, 3248222580, 3835390401, 4022224774,
   264347078, 604807628, 770255983, 1249150122, 1555081692, 1996064986,
   2554220882, 2821834349, 2952996808, 3210313671, 3336571891, 3584528711,
   113926993, 338241895, 666307205, 773529912, 1294757372, 1396182291,
   1695183700, 1986661051, 2177026350, 2456956037, 2730485921, 2820302411,
   3259730800, 3345764771, 3516065817, 3600352804, 4094571909, 275423344,
   430227734, 506948616, 659060556, 883997877, 958139571, 1322822218,
   1537002063, 1747873779, 1955562222, 2024104815, 2227730452, 2361852424,
   2428436474, 2756734187, 3204031479, 3329325298]

/-- SHA-256 message padding: the 0x80 byte, zeros, and the 64-bit big-endian
bit length, to a multiple of 64 bytes. -/
def shaPad (msg : List Nat) : List Nat :=
  let len := msg.length
  let zeros := (64 + 55 - len % 64) % 64
  msg ++ 128 :: List.replicate zeros 0 ++
    (List.range 8).map (fun i => (len * 8) >>> ((7 - i) * 8) % 256)

/-- Big-endian 32-bit words of a 64-byte block. -/
def blockWords (block : List Nat) : List Nat :=
  (List.range 16).map (fun i =>
    (block.getD (4 * i) 0) <<< 24 ||| (block.getD (4 * i + 1) 0) <<< 16 |||
    (block.getD (4 * i + 2) 0) <<< 8 ||| block.getD (4 * i + 3) 0)

/-- Message-schedule extension from 16 to 64 words. -/
def extendWords : Nat → List Nat → List Nat
  | 0, ws => ws
  | n + 1, ws =>
      let i := ws.length
      let x15 := ws.getD (i - 15) 0
      let x2 := ws.getD (i - 2) 0
      let s0 := rotr32 7 x15 ^^^ rotr32 18 x15 ^^^ (x15 >>> 3)
      let s1 := rotr32 17 x2 ^^^ rotr32 19 x2 ^^^ (x2 >>> 10)
      extendWords n (ws ++ [(ws.getD (i - 16) 0 + s0 + ws.getD (i - 7) 0 + s1) % w32])

/-- One SHA-256 compression round. -/
def shaRound (ws : List Nat) (i : Nat) (st : List Nat) : List Nat :=
  let a := st.getD 0 0
  let b := st.getD 1 0
  let c := st.getD 2 0
  let d := st.getD 3 0
  let e := st.getD 4 0
  let f := st.getD 5 0
  let g := st.getD 6 0
  let h := st.getD 7 0
  let s1 := rotr32 6 e ^^^ rotr32 11 e ^^^ rotr32 25 e
  let ch := (e &&& f) ^^^ ((e ^^^ 4294967295) &&& g)
  let t1 := (h + s1 + ch + shaK.getD i 0 + ws.getD i 0) % w32
  let s0 := rotr32 2 a ^^^ rotr32 13 a ^^^ rotr32 22 a
  let maj := (a &&& b) ^^^ (a &&& c) ^^^ (b &&& c)
  let t2 := (s0 + maj) % w32
  [(t1 + t2) % w32, a, b, c, (d + t1) % w32, e, f, g]

/-- The 64 compression rounds, driven by a countdown so the recursion is
structural and kernel-reducible. -/
def shaRounds (ws : List Nat) : Nat → List Nat → List Nat
  | 0, st => st
  | n + 1, st => shaRounds ws n (shaRound ws (64 - (n + 1)) st)

/-- Compression of one block into the running hash state. -/
def shaCompress (hs : List Nat) (block : List Nat) : List Nat :=
  let ws := extendWords 48 (blockWords block)
  let st := shaRounds ws 64 hs
  (List.range 8).map (fun i => (hs.getD i 0 + st.getD i 0) % w32)

/-- Folding the padded message block by block. -/
def shaBlocks : Nat → List Nat → List Nat → List Nat
  | 0, hs, _ => hs
  | n + 1, hs, msg => shaBlocks n (shaCompress hs (msg.take 64)) (msg.drop 64)

/-- SHA-256 digest of a byte string, as eight 32-bit words. -/
def sha256Words (msg : List Nat) : List Nat :=
  let padded := shaPad msg
  shaBlocks (padded.length / 64) shaH0 padded

/-- Lower-case hex digit characters. -/
def hexDigit (n : Nat) : Char :=
  if n < 10 then Char.ofNat (48 + n) else Char.ofNat (87 + n)

/-- Hex rendering of one 32-bit word, eight digits. -/
def wordHex (x : Nat) : List Char :=
  (List.range 8).map (fun i => hexDigit (x >>> ((7 - i) * 4) % 16))

/-- hashlib hexdigest of a byte string. -/
def sha256Hex (msg : List Nat) : String :=
  String.mk ((sha256Words msg).foldr (fun wrd acc => wordHex wrd ++ acc) [])

/-- UTF-8 bytes of an ASCII string (every string the repository hashes is
ASCII, where UTF-8 coincides with the code points). -/
def strBytes (s : String) : List Nat := s.data.map Char.toNat

/-- Embedding of Resource._generate_id: the first sixteen hexdigest
characters of the SHA-256 of the f-string interpolating title, url and
time(), whose rendering at construction time is the timeStr argument. -/
def generateId (title url timeStr : String) : String :=
  String.mk ((sha256Hex (strBytes (title ++ url ++ timeStr))).data.take 16)

/-! Embedding of src/core/rating_calculator.py (class RatingCalculator). -/

/-- Weight distribution of RatingCalculator.WEIGHTS, in declaration order. -/
def WEIGHTS : List (String × ℚ) :=
  [("relevance", 0.25), ("authority", 0.20), ("engagement", 0.20),
   ("clarity", 0.15), ("impact", 0.20)]

/-- Embedding of RatingCalculator.validate_weights: raises unless the weights
sum to 1 within 1e-4. -/
def validateWeights : Except Err Unit :=
  if |(WEIGHTS.map (·.2)).sum - 1| > 0.0001 then
    .error (.valueError "Weights must sum to 1")
  else .ok ()

/-- Embedding of RatingCalculator.calculate_relevance.  Python ints divide as
rationals under true division; the zero guard tests equality with zero
only. -/
def calculateRelevance (matchedKeywords totalKeywords : ℚ) : ℚ :=
  if totalKeywords = 0 then 0.0
  else pymin 10.0 ((matchedKeywords / totalKeywords) * 10)

/-- Embedding of RatingCalculator.calculate_authority. -/
def calculateAuthority (citations credentialsScore maxAuthority : ℚ) : ℚ :=
  if maxAuthority ≤ 0 then 0.0
  else pymin 10.0 (((citations + credentialsScore) / maxAuthority) * 10)

/-- Embedding of RatingCalculator.calculate_engagement. -/
def calculateEngagement (interactions sessionTime socialShares maxEngagement : ℚ) : ℚ :=
  if maxEngagement ≤ 0 then 0.0
  else pymin 10.0 (((interactions + sessionTime * 2 + socialShares) / maxEngagement) * 10)

/-- Embedding of RatingCalculator.calculate_clarity. -/
def calculateClarity (readabilityScore : ℚ) (usabilityFeatures : ℚ) (hasCta : Bool)
    (maxClarity : ℚ) : ℚ :=
  if maxClarity ≤ 0 then 0.0
  else
    let normalizedReadability := readabilityScore / 100.0
    let ctaScore : ℚ := if hasCta then 1 else 0
    let totalClarity := normalizedReadability * 5 + usabilityFeatures * 0.5 + ctaScore
    pymin 10.0 ((totalClarity / maxClarity) * 10)

/-- Embedding of RatingCalculator.calculate_impact. -/
def calculateImpact (positiveOutcomes tangibleMetrics maxImpact : ℚ) : ℚ :=
  if maxImpact ≤ 0 then 0.0
  else pymin 10.0 (((positiveOutcomes + tangibleMetrics) / maxImpact) * 10)

/-- Embedding of RatingCalculator.apply_modifiers: a half-point bonus if any
value of the scores dict is at least 9.5 and a half-point penalty if any is
at most 3.0. -/
def applyModifiers (scores : List (String × ℚ)) : ℚ :=
  let modifier : ℚ := 0.0
  let modifier := if scores.any (fun p => decide (p.2 ≥ 9.5)) then modifier + 0.5 else modifier
  let modifier := if scores.any (fun p => decide (p.2 ≤ 3.0)) then modifier - 0.5 else modifier
  modifier

/-- Embedding of RatingCalculator.calculate_final_score: checks that all five
required criteria are present (ValueError otherwise), forms the weighted sum,
adds modifiers and the review-count adjustment, and clamps the result with
min(10.0, max(1.0, x)). -/
def calculateFinalScore (scores : List (String × ℚ)) (reviewCount : ℚ) : Except Err ℚ :=
  if ¬ (WEIGHTS.all (fun p => (assocGet scores p.1).isSome)) then
    .error (.valueError "Missing required criteria")
  else
    let weightedScore := (WEIGHTS.map (fun p => ((assocGet scores p.1).getD 0) * p.2)).sum
    let modifier := applyModifiers scores
    let modifier := if reviewCount ≥ 500 then modifier + 0.2 else modifier
    .ok (pymin 10.0 (pymax 1.0 (weightedScore + modifier)))

/-! Embedding of src/models/resource.py (class Resource). -/

/-- Embedding of the Resource entity.  The descriptive fields hold arbitrary
Python values, as in the source; the rating attributes carry the types the
pipeline maintains for them (Resource.from_dict coerces serialized rating
data back into these types and raises on values no execution of the
repository produces there). -/
structure Resource where
  title : Val
  content : Val
  author : Val
  url : Val
  publicationDate : Val
  metadata : Val
  resourceId : Val
  scores : List (String × ℚ)
  finalScore : Option ℚ
  lastRated : Option Int
  ratingMetadata : List (String × Val)
  deriving DecidableEq, Repr, Inhabited

/-- Embedding of Resource.__init__: stores the given fields, and replaces a
falsy resource_id with the generated content-and-time hash.  The timeStr
argument is the f-string rendering of time() at construction. -/
def mkResource (title content author url publicationDate metadata resourceId : Val)
    (timeStr : String) : Resource :=
  { title := title, content := content, author := author, url := url,
    publicationDate := publicationDate, metadata := metadata,
    resourceId :=
      if pyTruthy resourceId then resourceId
      else .vstr (generateId (pyStr title) (pyStr url) timeStr),
    scores := [], finalScore := none, lastRated := none, ratingMetadata := [] }

/-- Embedding of Resource.to_dict. -/
def toDict (r : Resource) : Val :=
  .vdict
    [("resource_id", r.resourceId), ("title", r.title), ("content", r.content),
     ("author", r.author), ("url", r.url),
     ("publication_date", r.publicationDate), ("metadata", r.metadata),
     ("scores", .vdict (r.scores.map (fun p => (p.1, Val.vnum p.2)))),
     ("final_score", match r.finalScore with | some q => .vnum q | none => .vnone),
     ("last_rated", match r.lastRated with | some t => isoformat t | none => .vnone),
     ("rating_metadata", .vdict r.ratingMetadata)]

/-- Coercion of a serialized scores mapping back to the typed score list:
the inverse of the rendering performed by toDict.  A value of any other
shape raises; CPython would instead store it and fail on the next use, an
execution no caller of the repository reaches. -/
def asScores : Val → Except Err (List (String × ℚ))
  | .vdict xs => go xs
  | _ => .error (.typeError "scores must be a dict of numbers")
where
  /-- Entry-wise numeric coercion. -/
  go : List (String × Val) → Except Err (List (String × ℚ))
  | [] => .ok []
  | (k, .vnum q) :: rest => (go rest).map (fun l => (k, q) :: l)
  | _ => .error (.typeError "scores must be a dict of numbers")

/-- Coercion of a serialized final_score value. -/
def asFinalScore : Val → Except Err (Option ℚ)
  | .vnone => .ok none
  | .vnum q => .ok (some q)
  | _ => .error (.typeError "final_score must be a number or None")

/-- Coercion of a serialized rating_metadata mapping. -/
def asMetaDict : Val → Except Err (List (String × Val))
  | .vdict xs => .ok xs
  | _ => .error (.typeError "rating_metadata must be a dict")

/-- Embedding of Resource.from_dict: requires the six descriptive fields
(KeyError otherwise), passes data.get of resource_id to the constructor, and
then restores scores, final_score, last_rated (parsing the isoformat string
when present and truthy) and rating_metadata when present. -/
def fromDict (v : Val) (timeStr : String) : Except Err Resource :=
  match v with
  | .vdict data => do
      let title ← pyIndex data "title"
      let content ← pyIndex data "content"
      let author ← pyIndex data "author"
      let url ← pyIndex data "url"
      let publicationDate ← pyIndex data "publication_date"
      let metadata ← pyIndex data "metadata"
      let r := mkResource title content author url publicationDate metadata
        (dgetD data "resource_id" .vnone) timeStr
      let r ←
        if hasKey data "scores" then do
          let sc ← asScores (dgetD data "scores" .vnone)
          pure { r with scores := sc }
        else pure r
      let r ←
        if hasKey data "final_score" then do
          let fs ← asFinalScore (dgetD data "final_score" .vnone)
          pure { r with finalScore := fs }
        else pure r
      let r ←
        if hasKey data "last_rated" && pyTruthy (dgetD data "last_rated" .vnone) then do
          let t ← fromIsoVal (dgetD data "last_rated" .vnone)
          pure { r with lastRated := some t }
        else pure r
      let r ←
        if hasKey data "rating_metadata" then do
          let rm ← asMetaDict (dgetD data "rating_metadata" .vnone)
          pure { r with ratingMetadata := rm }
        else pure r
      pure r
  | _ => .error (.typeError "from_dict expects a dict")

/-- Embedding of Resource.update_score: clamps the score into the unit-to-ten
band with max(0.0, min(10.0, score)) and stamps last_rated with the current
time. -/
def updateScore (r : Resource) (criterion : String) (score : ℚ) (now : Int) : Resource :=
  { r with scores := assocSet r.scores criterion (pymax 0.0 (pymin 10.0 score)),
           lastRated := some now }

/-- Embedding of Resource.set_final_score: clamps with max(0.0, min(10.0, s)),
merges the optional metadata when truthy, and stamps last_rated. -/
def setFinalScore (r : Resource) (score : ℚ) (metadata : Option (List (String × Val)))
    (now : Int) : Resource :=
  let r := { r with finalScore := some (pymax 0.0 (pymin 10.0 score)) }
  let r :=
    match metadata with
    | some md => if md.isEmpty then r else { r with ratingMetadata := dmerge r.ratingMetadata md }
    | none => r
  { r with lastRated := some now }

/-- Embedding of Resource.is_stale: stale when never rated, or when the age
in seconds exceeds max_age_hours * 3600. -/
def isStale (r : Resource) (maxAgeHours : Int) (now : Int) : Bool :=
  match r.lastRated with
  | none => true
  | some t => decide ((now - t) > maxAgeHours * 3600)

/-! Embedding of src/core/data_processor.py (class DataProcessor). -/

/-- Regular-expression syntax sufficient for the DataProcessor URL pattern:
empty string, character class, concatenation, alternation, Kleene star and
counted repetition. -/
inductive RE where
  | eps
  | cls (f : Char → Bool)
  | cat (a b : RE)
  | alt (a b : RE)
  | star (a : RE)
  | rep (a : RE) (lo hi : Nat)

/-- Fuelled continuation-passing matcher deciding whether some decomposition
of the input matches; since the source only uses bool(pattern.match(url))
with a pattern anchored on both sides, acceptance (not the particular
backtracking order) is all the embedding needs.  The fuel bounds the
unfolding of starred subpatterns; the concrete validations below pass fuel
well beyond what their inputs can consume. -/
def reMatch : Nat → RE → List Char → (List Char → Bool) → Bool
  | 0, _, _, _ => false
  | fuel + 1, r, s, k =>
    match r with
    | .eps => k s
    | .cls f =>
        match s with
        | [] => false
        | c :: rest => f c && k rest
    | .cat a b => reMatch fuel a s (fun s' => reMatch fuel b s' k)
    | .alt a b => reMatch fuel a s k || reMatch fuel b s k
    | .star a => k s || reMatch fuel a s (fun s' => reMatch fuel (.star a) s' k)
    | .rep a lo hi =>
        match lo, hi with
        | 0, 0 => k s
        | 0, h + 1 => k s || reMatch fuel a s (fun s' => reMatch fuel (.rep a 0 h) s' k)
        | l + 1, h => reMatch fuel a s (fun s' => reMatch fuel (.rep a l (h - 1)) s' k)

/-- ASCII letter test (both cases, reflecting re.IGNORECASE). -/
def isAlphaCh (c : Char) : Bool :=
  ('a' ≤ c ∧ c ≤ 'z') ∨ ('A' ≤ c ∧ c ≤ 'Z')

/-- ASCII digit test. -/
def isDigitCh (c : Char) : Bool := '0' ≤ c ∧ c ≤ '9'

/-- ASCII alphanumeric test. -/
def isAlnumCh (c : Char) : Bool := isAlphaCh c || isDigitCh c

/-- Case-insensitive literal character, as compiled under re.IGNORECASE. -/
def ciChar (c : Char) : RE := .cls (fun ch => lowerChar ch = lowerChar c)

/-- Case-insensitive literal string. -/
def reLit (s : String) : RE :=
  s.data.foldr (fun c acc => .cat (ciChar c) acc) .eps

/-- One-or-more repetition. -/
def rePlus (r : RE) : RE := .cat r (.star r)

/-- Zero-or-one repetition. -/
def reOpt (r : RE) : RE := .rep r 0 1

/-- Transcription of the DataProcessor url_pattern: scheme, then domain or
localhost or dotted-quad address, then optional port, then the trailing
slash-or-path group, anchored on both ends. -/
def urlPattern : RE :=
  let az09 : RE := .cls (fun c => isAlnumCh c)
  let az09dash : RE := .cls (fun c => isAlnumCh c || c = '-')
  let az : RE := .cls (fun c => isAlphaCh c)
  let digit : RE := .cls (fun c => isDigitCh c)
  let dot : RE := reLit "."
  let label := RE.cat az09 (reOpt (.cat (.rep az09dash 0 61) az09))
  let domain := RE.cat (rePlus (.cat label dot)) (.cat (.rep az 2 6) (reOpt dot))
  let ip := RE.cat (.rep digit 1 3) (.cat dot (.cat (.rep digit 1 3)
    (.cat dot (.cat (.rep digit 1 3) (.cat dot (.rep digit 1 3))))))
  let host := RE.alt domain (.alt (reLit "localhost") ip)
  let port := reOpt (.cat (reLit ":") (rePlus digit))
  let path := RE.alt (reOpt (reLit "/"))
    (.cat (.cls (fun c => c = '/' || c = '?')) (rePlus (.cls (fun c => ¬ isWs c))))
  RE.cat (reLit "http") (.cat (reOpt (ciChar 's')) (.cat (reLit "://")
    (.cat host (.cat port path))))

/-- Embedding of DataProcessor._validate_url: bool(url_pattern.match(url)),
anchored on both sides by the pattern itself; on a non-string argument the
re module raises TypeError. -/
def validateUrl : Val → Except Err Bool
  | .vstr s => .ok (reMatch (400 + 40 * s.data.length) urlPattern s.data (fun rest => rest.isEmpty))
  | .vtime t =>
      .ok (reMatch (400 + 40 * (toString t).data.length) urlPattern (toString t).data
        (fun rest => rest.isEmpty))
  | _ => .error (.typeError "expected string or bytes-like object")

/-- Embedding of DataProcessor._validate_date: parse success of
datetime.fromisoformat on the Z-normalized string; the replace call raises
AttributeError on non-strings. -/
def validateDate : Val → Except Err Bool
  | .vtime _ => .ok true
  | .vstr s => .ok (parseIntStr (pyReplaceChar 'Z' "+00:00" s)).isSome
  | _ => .error (.attrError "replace")

/-- String-typedness in the sense of isinstance(x, str); an isoformat token
is a string. -/
def isStrVal : Val → Bool
  | .vstr _ => true
  | .vtime _ => true
  | _ => false

/-- Dict-typedness in the sense of isinstance(x, dict). -/
def isDictVal : Val → Bool
  | .vdict _ => true
  | _ => false

/-- List-typedness in the sense of isinstance(x, list). -/
def isListVal : Val → Bool
  | .vlist _ => true
  | _ => false

/-- Prefix test on character lists. -/
def charsHavePre : List Char → List Char → Bool
  | [], _ => true
  | _ :: _, [] => false
  | p :: ps, c :: cs => p = c && charsHavePre ps cs

/-- Substring test, the semantics of pat in hay on strings. -/
def strContains (hay pat : String) : Bool :=
  go hay.data
where
  /-- Scans every suffix for the pattern as a prefix. -/
  go : List Char → Bool
  | [] => charsHavePre pat.data []
  | c :: cs => charsHavePre pat.data (c :: cs) || go cs

/-- Python membership test k in v for the container shapes the validator can
meet; on numbers, booleans and None the in operator raises TypeError. -/
def pyContains (v : Val) (k : String) : Except Err Bool :=
  match v with
  | .vdict d => .ok (hasKey d k)
  | .vlist xs => .ok (xs.contains (Val.vstr k))
  | .vstr s => .ok (strContains s k)
  | .vtime t => .ok (strContains (toString t) k)
  | _ => .error (.typeError "argument is not iterable")

/-- Errors-dict accumulator: the setdefault-and-append idiom of
validate_resource_data. -/
def addErr (errs : List (String × List String)) (group msg : String) :
    List (String × List String) :=
  go errs
where
  /-- Appends msg to the group list, creating the group at the end when
  absent, as dict.setdefault does. -/
  go : List (String × List String) → List (String × List String)
  | [] => [(group, [msg])]
  | (g, ms) :: rest => if g = group then (g, ms ++ [msg]) :: rest else (g, ms) :: go rest

/-- Python v[k] for string keys: dict lookup with KeyError, TypeError on
shapes that do not support string subscripts. -/
def pyIndexVal (v : Val) (k : String) : Except Err Val :=
  match v with
  | .vdict d => pyIndex d k
  | _ => .error (.typeError "indices must be integers")

/-- Embedding of DataProcessor._validate_metadata: checks presence and type
of the keywords, category and language fields in order, collecting error
strings. -/
def validateMetadata (metadata : Val) : Except Err (List String) :=
  go [("keywords", isListVal), ("category", isStrVal), ("language", isStrVal)]
where
  /-- Field-by-field presence and type check. -/
  go : List (String × (Val → Bool)) → Except Err (List String)
  | [] => .ok []
  | (f, check) :: rest => do
      let present ← pyContains metadata f
      if ¬ present then
        (go rest).map (fun es => ("Missing required metadata field: " ++ f) :: es)
      else do
        let v ← pyIndexVal metadata f
        if ¬ check v then
          (go rest).map (fun es => ("Invalid metadata type for " ++ f) :: es)
        else go rest

/-- Embedding of DataProcessor.validate_resource_data: required-field
presence and isinstance checks in declaration order, then the URL check, the
date check and the metadata checks; returns the errors dict, whose only use
by the orchestrator is its truthiness. -/
def validateResourceData (data : Val) : Except Err (List (String × List String)) := do
  let errs ← goFields data
    [("title", isStrVal), ("content", isStrVal), ("author", isStrVal),
     ("publication_date", isStrVal), ("url", isStrVal), ("metadata", isDictVal)] []
  let hasUrl ← pyContains data "url"
  let errs ←
    if hasUrl then do
      let ok ← validateUrl (← pyIndexVal data "url")
      pure (if ¬ ok then addErr errs "invalid_values" "Invalid URL format" else errs)
    else pure errs
  let hasDate ← pyContains data "publication_date"
  let errs ←
    if hasDate then do
      let ok ← validateDate (← pyIndexVal data "publication_date")
      pure (if ¬ ok then addErr errs "invalid_values" "Invalid date format" else errs)
    else pure errs
  let hasMeta ← pyContains data "metadata"
  if hasMeta then do
    let mes ← validateMetadata (← pyIndexVal data "metadata")
    pure (if ¬ mes.isEmpty then errs ++ [("metadata", mes)] else errs)
  else pure errs
where
  /-- Required-field loop over the ordered field-and-type table. -/
  goFields (data : Val) : List (String × (Val → Bool)) →
      List (String × List String) → Except Err (List (String × List String))
  | [], errs => .ok errs
  | (f, check) :: rest, errs => do
      let present ← pyContains data f
      if ¬ present then goFields data rest (addErr errs "missing_fields" f)
      else do
        let v ← pyIndexVal data f
        if ¬ check v then
          goFields data rest (addErr errs "invalid_types" (f ++ ": unexpected type"))
        else goFields data rest errs

/-- Python word characters, the ASCII fragment of the regex class w that the
repository's inputs exercise. -/
def isWordCh (c : Char) : Bool := isAlnumCh c || c = '_'

/-- Sentence punctuation class of the cleaning regexes. -/
def isPunctCh (c : Char) : Bool := c = '.' || c = ',' || c = '!' || c = '?'

/-- Model of re.sub applied to the whitespace-punctuation-whitespace pattern
with replacement punct-then-space: a match starts wherever a whitespace run
(possibly empty) is immediately followed by sentence punctuation, and
consumes the run, the punctuation and the following whitespace run. -/
def subPunctWs (s : List Char) : List Char :=
  go (s.length + 1) s
where
  /-- Fuelled left-to-right scan; fuel dominates the input length. -/
  go : Nat → List Char → List Char
  | 0, _ => []
  | _ + 1, [] => []
  | fuel + 1, c :: rest =>
      if isPunctCh c then c :: ' ' :: go fuel (rest.dropWhile isWs)
      else if isWs c then
        match (c :: rest).dropWhile isWs with
        | p :: rest' =>
            if isPunctCh p then p :: ' ' :: go fuel (rest'.dropWhile isWs)
            else c :: go fuel rest
        | [] => c :: go fuel rest
      else c :: go fuel rest

/-- Model of re.sub applied to the two-or-more-dots pattern with a single-dot
replacement. -/
def subManyDots (s : List Char) : List Char :=
  go (s.length + 1) s
where
  /-- Fuelled scan collapsing dot runs of length at least two. -/
  go : Nat → List Char → List Char
  | 0, _ => []
  | _ + 1, [] => []
  | fuel + 1, c :: rest =>
      if c = '.' then
        match rest with
        | '.' :: _ => '.' :: go fuel (rest.dropWhile (fun ch => ch = '.'))
        | _ => c :: go fuel rest
      else c :: go fuel rest

/-- Model of re.sub applied to the punctuation-whitespace pattern with
replacement punct-then-space. -/
def subPunctTrail (s : List Char) : List Char :=
  go (s.length + 1) s
where
  /-- Fuelled scan appending one space after each punctuation mark. -/
  go : Nat → List Char → List Char
  | 0, _ => []
  | _ + 1, [] => []
  | fuel + 1, c :: rest =>
      if isPunctCh c then c :: ' ' :: go fuel (rest.dropWhile isWs)
      else c :: go fuel rest

/-- Embedding of DataProcessor.clean_text_content: falsy content becomes the
empty string; otherwise whitespace is collapsed, characters outside the
word-whitespace-punctuation-hyphen class are removed, the three punctuation
normalization substitutions run in order, and the result is stripped.  The
attribute error on truthy non-string content is the CPython behaviour of the
first method call. -/
def cleanTextContent (content : Val) : Except Err Val := do
  if ¬ pyTruthy content then pure (.vstr "")
  else do
    let s ←
      match content with
      | .vstr s => pure s
      | .vtime t => pure (toString t)
      | _ => Except.error (.attrError "split")
    let s := pyJoin " " (pySplitWs s)
    let s := String.mk (s.data.filter (fun c => isWordCh c || isWs c || isPunctCh c || c = '-'))
    let s := String.mk (subPunctWs s.data)
    let s := String.mk (subManyDots s.data)
    let s := String.mk (subPunctTrail s.data)
    pure (.vstr (pyStrip s))

/-- Keyword normalization of _normalize_metadata: lower-cased, stripped,
blank-filtered keywords, deduplicated.  CPython materializes the
deduplicated set in an unspecified (hash-dependent) order; the model keeps
one occurrence per keyword, and no theorem below depends on the order. -/
def normalizeKeywords : List Val → Except Err (List Val)
  | [] => .ok []
  | v :: rest => do
      let s ←
        match v with
        | .vstr s => pure s
        | .vtime t => pure (toString t)
        | _ => Except.error (.attrError "strip")
      let rest' ← normalizeKeywords rest
      if pyStrip s = "" then pure rest'
      else
        let norm := pyStrip (pyLower s)
        pure (if rest'.contains (Val.vstr norm) then rest' else Val.vstr norm :: rest')

/-- Lower-case-and-strip for the category and language fields, raising
AttributeError on non-strings as the method call would. -/
def lowerStrip : Val → Except Err Val
  | .vstr s => .ok (.vstr (pyStrip (pyLower s)))
  | .vtime t => .ok (.vstr (pyStrip (pyLower (toString t))))
  | _ => .error (.attrError "lower")

/-- Embedding of DataProcessor._normalize_metadata: builds the normalized
keyword, category and language entries and merges them over the original
mapping. -/
def normalizeMetadata (metadata : Val) : Except Err Val := do
  let hasKw ← pyContains metadata "keywords"
  let normalized : List (String × Val) := []
  let normalized ←
    if hasKw then do
      let kws ← pyIndexVal metadata "keywords"
      match kws with
      | .vlist xs => do
          let nk ← normalizeKeywords xs
          pure (normalized ++ [("keywords", Val.vlist nk)])
      | _ => Except.error (.typeError "keywords are not iterable")
    else pure normalized
  let hasCat ← pyContains metadata "category"
  let normalized ←
    if hasCat then do
      let c ← lowerStrip (← pyIndexVal metadata "category")
      pure (normalized ++ [("category", c)])
    else pure normalized
  let hasLang ← pyContains metadata "language"
  let normalized ←
    if hasLang then do
      let l ← lowerStrip (← pyIndexVal metadata "language")
      pure (normalized ++ [("language", l)])
    else pure normalized
  match metadata with
  | .vdict d => pure (.vdict (dmerge d normalized))
  | _ => Except.error (.typeError "mapping expected")

/-- Embedding of DataProcessor._normalize_date: re-renders a parseable date
in isoformat and returns the original string when parsing fails; the replace
call raises AttributeError on non-strings. -/
def normalizeDate : Val → Except Err Val
  | .vtime t => .ok (isoformat t)
  | .vstr s =>
      match parseIntStr (pyReplaceChar 'Z' "+00:00" s) with
      | some t => .ok (isoformat t)
      | none => .ok (.vstr s)
  | _ => .error (.attrError "replace")

/-- Model of str.lower applied to the url field by prepare_resource_data. -/
def pyLowerVal : Val → Except Err Val
  | .vstr s => .ok (.vstr (pyLower s))
  | .vtime t => .ok (.vstr (pyLower (toString t)))
  | _ => .error (.attrError "lower")

/-- Embedding of DataProcessor.prepare_resource_data: copies the input dict
and rewrites the content, metadata, publication_date and url entries in that
order. -/
def prepareResourceData (data : Val) : Except Err Val := do
  let d ←
    match data with
    | .vdict d => pure d
    | _ => Except.error (.attrError "copy")
  let d ←
    if hasKey d "content" then do
      let c ← cleanTextContent (dgetD d "content" .vnone)
      pure (dset d "content" c)
    else pure d
  let d ←
    if hasKey d "metadata" then do
      let m ← normalizeMetadata (dgetD d "metadata" .vnone)
      pure (dset d "metadata" m)
    else pure d
  let d ←
    if hasKey d "publication_date" then do
      let p ← normalizeDate (dgetD d "publication_date" .vnone)
      pure (dset d "publication_date" p)
    else pure d
  let d ←
    if hasKey d "url" then do
      let u ← pyLowerVal (dgetD d "url" .vnone)
      pure (dset d "url" u)
    else pure d
  pure (.vdict d)

/-! Embedding of src/core/metrics_collector.py (class MetricsCollector).
The natural-language toolkit functions it calls (word_tokenize,
sent_tokenize, the stopword list) are external library code; the spec
classes text analytics as an external collaborator, so they are parameters
bundled in the structure Externals. -/

/-- External text-analytics functions consumed by the metrics collector. -/
structure Externals where
  tokenizeWords : String → List String
  tokenizeSents : String → List String
  stopWords : List String

/-- Numeric coercion performed implicitly by Python arithmetic: numbers pass
through, booleans count as 0 and 1, anything else raises TypeError at the
first arithmetic use. -/
def asNum : Val → Except Err ℚ
  | .vnum q => .ok q
  | .vbool b => .ok (if b then 1 else 0)
  | _ => .error (.typeError "unsupported operand type")

/-- Python str.isalnum: non-empty and alphanumeric throughout. -/
def pyIsAlnum (s : String) : Bool :=
  decide (s ≠ "") && s.data.all isAlnumCh

/-- Embedding of the count_syllables helper nested in _calculate_flesch_score:
counts vowel-run starts, discounts a trailing e, and never reports zero.
The words it receives come from str.split and are therefore non-empty. -/
def countSyllables (w : String) : Int :=
  let w := pyLower w
  let isVowel := fun c => c = 'a' || c = 'e' || c = 'i' || c = 'o' || c = 'u' || c = 'y'
  match w.data with
  | [] => 0
  | c0 :: rest =>
      let start : Int := if isVowel c0 then 1 else 0
      let count := start + countRuns isVowel c0 rest
      let count := if w.data.getLast? = some 'e' then count - 1 else count
      if count = 0 then 1 else count
where
  /-- Counts positions holding a vowel whose predecessor is not a vowel. -/
  countRuns (isVowel : Char → Bool) : Char → List Char → Int
  | _, [] => 0
  | prev, c :: rest =>
      (if isVowel c ∧ ¬ isVowel prev then 1 else 0) + countRuns isVowel c rest

/-- Embedding of MetricsCollector._calculate_flesch_score. -/
def fleschScore (wordCount sentenceCount : Nat) (content : String) : ℚ :=
  if wordCount = 0 ∨ sentenceCount = 0 then 0.0
  else
    let syllableCount : Int := ((pySplitWs content).map countSyllables).sum
    let score : ℚ := 206.835 - 1.015 * ((wordCount : ℚ) / (sentenceCount : ℚ))
      - 84.6 * ((syllableCount : ℚ) / (wordCount : ℚ))
    pymax 0.0 (pymin 100.0 score)

/-- Occurrence counting in first-appearance order, the iteration order of
collections.Counter. -/
def bumpCount : List (String × Nat) → String → List (String × Nat)
  | [], w => [(w, 1)]
  | (w', n) :: rest, w =>
      if w' = w then (w', n + 1) :: rest else (w', n) :: bumpCount rest w

/-- Counter construction over the keyword list. -/
def keywordCounts (ws : List String) : List (String × Nat) :=
  ws.foldl bumpCount []

/-- Counter.most_common(10): sorted by descending count, insertion order on
ties (a stable descending sort), truncated to ten entries. -/
def mostCommon10 (counts : List (String × Nat)) : List (String × Nat) :=
  (List.insertionSort (fun a b => a.2 ≥ b.2) counts).take 10

/-- Embedding of MetricsCollector.analyze_text_content: the short-circuit
bundle for falsy content, and otherwise word and sentence tokenization,
stopword-filtered alphanumeric keywords, the Flesch score, and the top
keyword frequencies with densities. -/
def analyzeTextContent (ext : Externals) (content : Val) : Except Err Val := do
  if ¬ pyTruthy content then
    pure (.vdict
      [("word_count", .vnum 0), ("keywords", .vlist []),
       ("readability_score", .vnum 0.0), ("sentence_count", .vnum 0)])
  else do
    let s ←
      match content with
      | .vstr s => pure s
      | .vtime t => pure (toString t)
      | _ => Except.error (.attrError "lower")
    let words := ext.tokenizeWords (pyLower s)
    let sentences := ext.tokenizeSents s
    let keywords := words.filter (fun w => pyIsAlnum w && ¬ ext.stopWords.contains w)
    let wordCount := words.length
    let sentenceCount := sentences.length
    let avgSentenceLength : ℚ := (wordCount : ℚ) / (max 1 sentenceCount : Nat)
    let readability := fleschScore wordCount sentenceCount s
    let top := mostCommon10 (keywordCounts keywords)
    pure (.vdict
      [("word_count", .vnum wordCount), ("sentence_count", .vnum sentenceCount),
       ("avg_sentence_length", .vnum avgSentenceLength),
       ("readability_score", .vnum readability),
       ("keywords", .vlist (top.map (fun p => .vlist [.vstr p.1, .vnum p.2]))),
       ("keyword_density",
        .vdict (top.map (fun p => (p.1, Val.vnum ((p.2 : ℚ) / (wordCount : ℚ))))))])

/-- Embedding of MetricsCollector.analyze_engagement_metrics. -/
def analyzeEngagementMetrics (metrics : Val) : Except Err Val := do
  let ok1 ← pyContains metrics "view_count"
  let ok2 ← pyContains metrics "interaction_time"
  let ok3 ← pyContains metrics "social_shares"
  if ¬ (ok1 && ok2 && ok3) then
    Except.error (.valueError "Missing required engagement metrics")
  else do
    let totalViews ← asNum (← pyIndexVal metrics "view_count")
    let avgInteractionTime ← asNum (← pyIndexVal metrics "interaction_time")
    let socialShares ← asNum (← pyIndexVal metrics "social_shares")
    let interactions ← asNum
      (match metrics with | .vdict d => dgetD d "interactions" (.vnum 0) | _ => .vnum 0)
    pure (.vdict
      [("interaction_rate", .vnum (pymin 10.0 ((interactions / pymax 1 totalViews) * 10))),
       ("avg_session_time", .vnum (pymin 10.0 (avgInteractionTime / 5))),
       ("social_impact", .vnum (pymin 10.0 ((socialShares / pymax 1 totalViews) * 20)))])

/-- Embedding of MetricsCollector.analyze_authority_metrics. -/
def analyzeAuthorityMetrics (metrics : Val) : Except Err Val := do
  let ok1 ← pyContains metrics "citations"
  let ok2 ← pyContains metrics "author_credentials"
  let ok3 ← pyContains metrics "domain_authority"
  if ¬ (ok1 && ok2 && ok3) then
    Except.error (.valueError "Missing required authority metrics")
  else do
    let citations ← asNum (← pyIndexVal metrics "citations")
    let credentials ← asNum (← pyIndexVal metrics "author_credentials")
    let domain ← asNum (← pyIndexVal metrics "domain_authority")
    let citationScore := pymin 10.0 (citations / 10)
    let credentialsScore := pymin 10.0 credentials
    let domainScore := pymin 10.0 domain
    pure (.vdict
      [("citation_impact", .vnum citationScore),
       ("author_expertise", .vnum credentialsScore),
       ("domain_authority", .vnum domainScore),
       ("overall_authority", .vnum ((citationScore + credentialsScore + domainScore) / 3))])

/-- Embedding of MetricsCollector.calculate_impact_metrics. -/
def calculateImpactMetrics (metrics : Val) : Except Err Val := do
  let ok1 ← pyContains metrics "positive_outcomes"
  let ok2 ← pyContains metrics "conversion_rate"
  let ok3 ← pyContains metrics "user_satisfaction"
  if ¬ (ok1 && ok2 && ok3) then
    Except.error (.valueError "Missing required impact metrics")
  else do
    let outcomes ← asNum (← pyIndexVal metrics "positive_outcomes")
    let conversion ← asNum (← pyIndexVal metrics "conversion_rate")
    let satisfaction ← asNum (← pyIndexVal metrics "user_satisfaction")
    let outcomesScore := pymin 10.0 outcomes
    let conversionScore := pymin 10.0 (conversion * 10)
    let satisfactionScore := pymin 10.0 satisfaction
    pure (.vdict
      [("outcome_effectiveness", .vnum outcomesScore),
       ("conversion_impact", .vnum conversionScore),
       ("user_satisfaction", .vnum satisfactionScore),
       ("overall_impact", .vnum ((outcomesScore + conversionScore + satisfactionScore) / 3))])

/-! Embedding of src/utils/cache_manager.py (class CacheManager).  The
in-memory dict is the state; disk writes have no further observable effect
inside one process, and load-time rehydration consumes an explicit disk
image; the instance lock is the identity in this single-threaded model. -/

/-- One memory_cache binding: key, cached data, absolute expiry timestamp. -/
abbrev CacheEntry := Val × Val × Int

/-- The in-memory cache state, in dict insertion order with unique keys. -/
structure CacheState where
  entries : List CacheEntry
  deriving DecidableEq, Repr, Inhabited

/-- The empty cache. -/
def emptyCache : CacheState := ⟨[]⟩

/-- Well-formedness: dict keys are unique. -/
def cacheWF (s : CacheState) : Prop := (s.entries.map (·.1)).Nodup

/-- Lookup of a key in the entry list. -/
def lookupEntry : List CacheEntry → Val → Option (Val × Int)
  | [], _ => none
  | (k', v, e) :: rest, k => if k' = k then some (v, e) else lookupEntry rest k

/-- Removal of a key from the entry list (del on a dict removes the unique
binding of the key). -/
def removeEntry : List CacheEntry → Val → List CacheEntry
  | [], _ => []
  | (k', v, e) :: rest, k => if k' = k then rest else (k', v, e) :: removeEntry rest k

/-- Dict write memory_cache[key] = (value, expiry): updates the binding in
place or appends a new one, as CPython dicts preserve insertion order. -/
def entrySet : List CacheEntry → Val → Val → Int → List CacheEntry
  | [], k, v, e => [(k, v, e)]
  | (k', v', e') :: rest, k, v, e =>
      if k' = k then (k, v, e) :: rest else (k', v', e') :: entrySet rest k v e

/-- Aggregate serialized size of the cached values, the sum the source
recomputes in _cleanup_old_cache and get_cache_size. -/
def cacheSizeOf (entries : List CacheEntry) : Nat :=
  (entries.map (fun e => jsonSize e.2.1)).sum

/-- Embedding of CacheManager.get_cache_size. -/
def getCacheSize (s : CacheState) : Nat := cacheSizeOf s.entries

/-- Stable sort of the entries by ascending expiry, the model of
sorted(items, key=expiry); CPython sorted and an insertion sort inserting
after equals compute the same stable result. -/
def sortByExpiry (entries : List CacheEntry) : List CacheEntry :=
  List.insertionSort (fun a b => a.2.2 ≤ b.2.2) entries

/-- The entries the eviction loop pops: the longest prefix of the sorted
list along which the running size remains above the budget. -/
def evictPrefix (maxB : Nat) : List CacheEntry → Int → List CacheEntry
  | [], _ => []
  | e :: rest, size =>
      if size > (maxB : Int) then e :: evictPrefix maxB rest (size - jsonSize e.2.1)
      else []

/-- The entries the eviction loop leaves in the sorted order, the
complementary suffix of evictPrefix. -/
def evictSuffix (maxB : Nat) : List CacheEntry → Int → List CacheEntry
  | [], _ => []
  | e :: rest, size =>
      if size > (maxB : Int) then evictSuffix maxB rest (size - jsonSize e.2.1)
      else e :: rest

/-- Embedding of CacheManager._cleanup_old_cache: when the aggregate size
exceeds the budget, pop entries in ascending expiry order until at or under
budget (or none remain) and delete each popped key from the dict, which
keeps its insertion order for the survivors. -/
def cleanupOldCache (maxB : Nat) (s : CacheState) : CacheState :=
  let currentSize := cacheSizeOf s.entries
  if (currentSize : Int) > (maxB : Int) then
    let removed := (evictPrefix maxB (sortByExpiry s.entries) currentSize).map (·.1)
    ⟨s.entries.filter (fun e => !(removed.contains e.1))⟩
  else s

/-- Embedding of CacheManager.get: a hit with expiry strictly in the future
returns the data and leaves the state unchanged; a present but expired entry
is deleted and the call misses; an absent key misses. -/
def cacheGet (s : CacheState) (k : Val) (now : Int) : Option Val × CacheState :=
  match lookupEntry s.entries k with
  | none => (none, s)
  | some (v, exp) =>
      if exp > now then (some v, s) else (none, ⟨removeEntry s.entries k⟩)

/-- Embedding of CacheManager.set with its expire_hours argument: writes the
value with expiry now plus the horizon, persists (no in-model effect), and
runs the cleanup. -/
def cacheSet (maxB : Nat) (s : CacheState) (k : Val) (v : Val) (now : Int)
    (expireHours : Int) : CacheState :=
  cleanupOldCache maxB ⟨entrySet s.entries k v (now + expireHours * 3600)⟩

/-- Embedding of CacheManager.delete: removes the binding when present;
idempotent. -/
def cacheDelete (s : CacheState) (k : Val) : CacheState :=
  match lookupEntry s.entries k with
  | none => s
  | some _ => ⟨removeEntry s.entries k⟩

/-- Embedding of CacheManager.clear_cache. -/
def clearCache (_ : CacheState) : CacheState := emptyCache

/-- Embedding of CacheManager.get_cache_stats.  The percentage division is
rational here; CPython raises ZeroDivisionError for a zero budget, a
configuration no caller uses. -/
def getCacheStats (maxB : Nat) (s : CacheState) (now : Int) : Val :=
  let currentSize := getCacheSize s
  .vdict
    [("current_size_bytes", .vnum currentSize),
     ("max_size_bytes", .vnum maxB),
     ("item_count", .vnum s.entries.length),
     ("expired_count",
      .vnum ((s.entries.filter (fun e => decide (e.2.2 ≤ now))).length)),
     ("size_used_percentage", .vnum (((currentSize : ℚ) / (maxB : ℚ)) * 100))]

/-- One disk-index record as _load_cache consumes it: the recorded expiry
value and the state of the per-key data file: none when the file is absent
(the entry is skipped), some none when the file exists but does not parse
(json.load raises), some (some v) for a parsed payload v. -/
structure DiskEntry where
  expiry : Val
  file : Option (Option Val)
  deriving DecidableEq, Repr, Inhabited

/-- Entry loop of _load_cache: returns none when any step raises, in which
case the handler clears the whole cache. -/
def loadEntries (now : Int) : List (String × DiskEntry) → Option (List CacheEntry)
  | [] => some []
  | (k, de) :: rest =>
      match de.file with
      | none => loadEntries now rest
      | some none => none
      | some (some v) =>
          match fromIsoVal de.expiry with
          | .error _ => none
          | .ok exp =>
              if exp > now then (loadEntries now rest).map (fun es => (Val.vstr k, v, exp) :: es)
              else loadEntries now rest

/-- Embedding of CacheManager._load_cache: an unreadable index (the none
image) or any exception while loading an entry degrades to the empty cache
via clear_cache; otherwise the unexpired entries are rehydrated in index
order. -/
def loadCache (image : Option (List (String × DiskEntry))) (now : Int) : CacheState :=
  match image with
  | none => emptyCache
  | some idx =>
      match loadEntries now idx with
      | none => emptyCache
      | some es => ⟨es⟩

/-! Embedding of src/core/rating_service.py (class RatingService). -/

/-- The duck-typed input of rate_resource: an already-constructed Resource
or a raw dict. -/
inductive RInput where
  | rsrc (r : Resource)
  | dict (v : Val)
  deriving DecidableEq, Repr

/-- Embedding of RatingService._collect_metrics: runs the text analysis over
the resource content, assembles the three metadata-driven bundles with the
source's key mapping and zero defaults, and merges all four bundles into
rating_metadata. -/
def collectMetrics (ext : Externals) (r : Resource) : Except Err Resource := do
  let contentMetrics ← analyzeTextContent ext r.content
  let md ←
    match r.metadata with
    | .vdict d => pure d
    | _ => Except.error (.attrError "get")
  let engagementMetrics ← analyzeEngagementMetrics (.vdict
    [("view_count", dgetD md "view_count" (.vnum 0)),
     ("interaction_time", dgetD md "avg_interaction_time" (.vnum 0)),
     ("social_shares", dgetD md "social_shares" (.vnum 0)),
     ("interactions", dgetD md "total_interactions" (.vnum 0))])
  let authorityMetrics ← analyzeAuthorityMetrics (.vdict
    [("citations", dgetD md "citations" (.vnum 0)),
     ("author_credentials", dgetD md "author_credentials_score" (.vnum 0)),
     ("domain_authority", dgetD md "domain_authority" (.vnum 0))])
  let impactMetrics ← calculateImpactMetrics (.vdict
    [("positive_outcomes", dgetD md "positive_outcomes" (.vnum 0)),
     ("conversion_rate", dgetD md "conversion_rate" (.vnum 0)),
     ("user_satisfaction", dgetD md "user_satisfaction" (.vnum 0))])
  let bundles : List (String × Val) :=
    [("content_metrics", contentMetrics), ("engagement_metrics", engagementMetrics),
     ("authority_metrics", authorityMetrics), ("impact_metrics", impactMetrics)]
  pure { r with ratingMetadata := dmerge r.ratingMetadata bundles }

/-- Python len for the shapes _calculate_rating measures. -/
def pyLen : Val → Except Err Nat
  | .vlist xs => .ok xs.length
  | .vdict xs => .ok xs.length
  | .vstr s => .ok s.length
  | _ => .error (.typeError "object has no len")

/-- Embedding of RatingService._calculate_rating: reads the bundles back out
of rating_metadata, computes the five criterion scores with the fixed
maxima, clamps them into the resource one by one, computes the final score
from the unclamped dict together with the metadata review count, and stores
it with provenance metadata. -/
def calculateRating (r : Resource) (now : Int) : Except Err Resource := do
  let metrics := r.ratingMetadata
  let contentMetrics ← pyIndex metrics "content_metrics"
  let keywordsVal ← pyIndexVal contentMetrics "keywords"
  let keywordCount ← pyLen keywordsVal
  let wordCount ← asNum (← pyIndexVal contentMetrics "word_count")
  let relevanceScore := calculateRelevance (keywordCount : ℚ) wordCount
  let authorityMetrics ← pyIndex metrics "authority_metrics"
  let authorityScore := calculateAuthority
    (← asNum (← pyIndexVal authorityMetrics "citation_impact"))
    (← asNum (← pyIndexVal authorityMetrics "author_expertise")) 10.0
  let engagementMetrics ← pyIndex metrics "engagement_metrics"
  let engagementScore := calculateEngagement
    (← asNum (← pyIndexVal engagementMetrics "interaction_rate"))
    (← asNum (← pyIndexVal engagementMetrics "avg_session_time"))
    (← asNum (← pyIndexVal engagementMetrics "social_impact")) 10.0
  let clarityScore := calculateClarity
    (← asNum (← pyIndexVal contentMetrics "readability_score"))
    (keywordCount : ℚ) true 10.0
  let impactMetrics ← pyIndex metrics "impact_metrics"
  let impactScore := calculateImpact
    (← asNum (← pyIndexVal impactMetrics "outcome_effectiveness"))
    (← asNum (← pyIndexVal impactMetrics "conversion_impact")) 10.0
  let scores : List (String × ℚ) :=
    [("relevance", relevanceScore), ("authority", authorityScore),
     ("engagement", engagementScore), ("clarity", clarityScore),
     ("impact", impactScore)]
  let r := scores.foldl (fun rr p => updateScore rr p.1 p.2 now) r
  let md ←
    match r.metadata with
    | .vdict d => pure d
    | _ => Except.error (.attrError "get")
  let reviewCount ← asNum (dgetD md "review_count" (.vnum 0))
  let finalScore ← calculateFinalScore scores reviewCount
  pure (setFinalScore r finalScore (some
    [("calculation_timestamp", isoformat now), ("review_count", .vnum reviewCount),
     ("score_breakdown", .vdict (scores.map (fun p => (p.1, Val.vnum p.2))))]) now)

/-- The try block of rate_resource as a pure pipeline: validation,
preparation, reconstruction, metrics collection, rating. -/
def ratePipelineE (ext : Externals) (now : Int) (timeStr : String) (r : Resource) :
    Except Err Resource := do
  let errors ← validateResourceData (toDict r)
  if ¬ errors.isEmpty then throw (.valueError "Invalid resource data")
  let processed ← prepareResourceData (toDict r)
  let r2 ← fromDict processed timeStr
  let r3 ← collectMetrics ext r2
  calculateRating r3 now

/-- The try block of rate_resource including its cache write: on success the
rated resource is stored under its identity with the default 24 hour expiry
before being returned; on failure the error is logged and re-raised and the
cache is untouched. -/
def ratePipeline (ext : Externals) (maxB : Nat) (cache : CacheState) (now : Int)
    (timeStr : String) (r : Resource) : Except Err Resource × CacheState :=
  match ratePipelineE ext now timeStr r with
  | .error e => (.error e, cache)
  | .ok rated => (.ok rated, cacheSet maxB cache rated.resourceId (toDict rated) now 24)

/-- Embedding of RatingService.rate_resource: converts the input, consults
the cache unless force_refresh, serves a truthy, fresh, deserializable hit
immediately (deserializing the cached dict twice, as the source does, with
any deserialization error escaping before the try block), and otherwise
runs the full pipeline. -/
def rateResource (ext : Externals) (maxB : Nat) (cache : CacheState) (now : Int)
    (timeStr : String) (input : RInput) (forceRefresh : Bool) :
    Except Err Resource × CacheState :=
  match (match input with | .rsrc r => Except.ok r | .dict v => fromDict v timeStr) with
  | .error e => (.error e, cache)
  | .ok resource =>
      if forceRefresh then ratePipeline ext maxB cache now timeStr resource
      else
        match cacheGet cache resource.resourceId now with
        | (some cached, cache') =>
            if pyTruthy cached then
              match fromDict cached timeStr with
              | .error e => (.error e, cache')
              | .ok rc =>
                  if ¬ isStale rc 24 now then
                    match fromDict cached timeStr with
                    | .error e => (.error e, cache')
                    | .ok rc2 => (.ok rc2, cache')
                  else ratePipeline ext maxB cache' now timeStr resource
            else ratePipeline ext maxB cache' now timeStr resource
        | (none, cache') => ratePipeline ext maxB cache' now timeStr resource

/-- One chunk of bulk_rate_resources: resources are rated in order and
appended to the output; the first failure is caught by the chunk-level
handler, which logs it and abandons the remainder of the chunk. -/
def rateSeqChunk (ext : Externals) (maxB : Nat) (now : Int) (timeStr : String) :
    List RInput → CacheState → List Resource × CacheState × Bool
  | [], c => ([], c, false)
  | x :: xs, c =>
      match rateResource ext maxB c now timeStr x false with
      | (.ok r, c') =>
          let (rs, c'', failed) := rateSeqChunk ext maxB now timeStr xs c'
          (r :: rs, c'', failed)
      | (.error _, c') => ([], c', true)

/-- Partition into consecutive chunks of the given positive size, the
iteration pattern of range(0, len(resources), batch_size). -/
def chunksOf (n : Nat) (l : List RInput) : List (List RInput) :=
  go l.length l
where
  /-- Fuelled chunking loop; each step drops n elements with n positive. -/
  go : Nat → List RInput → List (List RInput)
  | 0, _ => []
  | _ + 1, [] => []
  | fuel + 1, l => l.take n :: go fuel (l.drop n)

/-- Chunk loop of bulk_rate_resources, also counting the logged batch
failures (one log line per chunk whose processing raised). -/
def bulkGo (ext : Externals) (maxB : Nat) (now : Int) (timeStr : String) :
    List (List RInput) → CacheState → List Resource × CacheState × Nat
  | [], c => ([], c, 0)
  | ch :: rest, c =>
      let (rs, c', failed) := rateSeqChunk ext maxB now timeStr ch c
      let (rs2, c'', logs) := bulkGo ext maxB now timeStr rest c'
      (rs ++ rs2, c'', (if failed then 1 else 0) + logs)

/-- Embedding of RatingService.bulk_rate_resources: processes the inputs in
chunks of batch_size, skipping the rest of a chunk on its first failure and
logging one error per failed chunk, and returns the successfully rated
resources; a zero batch size makes range raise, the only way the method
itself can raise. -/
def bulkRateResources (ext : Externals) (maxB : Nat) (resources : List RInput)
    (batchSize : Nat) (c : CacheState) (now : Int) (timeStr : String) :
    Except Err (List Resource × CacheState × Nat) :=
  if batchSize = 0 then .error (.valueError "range arg 3 must not be zero")
  else .ok (bulkGo ext maxB now timeStr (chunksOf batchSize resources) c)

/-- Embedding of RatingService.get_cached_rating. -/
def getCachedRating (cache : CacheState) (resourceId : Val) (now : Int)
    (timeStr : String) : Except Err (Option Resource) × CacheState :=
  match cacheGet cache resourceId now with
  | (some cached, cache') =>
      if pyTruthy cached then
        match fromDict cached timeStr with
        | .error e => (.error e, cache')
        | .ok r => (.ok (some r), cache')
      else (.ok none, cache')
  | (none, cache') => (.ok none, cache')

instance {ε α : Type} [DecidableEq ε] [DecidableEq α] : DecidableEq (Except ε α) :=
  fun a b =>
    match a, b with
    | .ok x, .ok y =>
        if h : x = y then isTrue (by rw [h]) else isFalse (fun he => h (Except.ok.inj he))
    | .error x, .error y =>
        if h : x = y then isTrue (by rw [h]) else isFalse (fun he => h (Except.error.inj he))
    | .ok _, .error _ => isFalse (fun he => Except.noConfusion he)
    | .error _, .ok _ => isFalse (fun he => Except.noConfusion he)

/-! Concrete fixtures used by the witnesses and counterexamples below. -/

/-- One concrete instantiation of the external text-analytics contract:
whitespace tokenization, whole-text sentences, no stopwords.  The pipeline
control flow under scrutiny does not depend on which instantiation is
chosen; this one keeps evaluation small. -/
def simpleExternals : Externals :=
  { tokenizeWords := pySplitWs,
    tokenizeSents := fun s => if s = "" then [] else [s],
    stopWords := [] }

/-- The default byte budget of the cache constructor: 100 megabytes. -/
def defaultMaxBytes : Nat := 100 * 1024 * 1024

/-- A well-formed raw input dict carrying its own resource_id.  The content
is the empty string, which is valid input (content must merely be a string)
and keeps the concrete evaluations small. -/
def exValidDict : Val := .vdict
  [("title", .vstr "T"), ("content", .vstr ""), ("author", .vstr "A"),
   ("url", .vstr "http://a.co"), ("publication_date", .vstr "1000"),
   ("metadata", .vdict
     [("keywords", .vlist []), ("category", .vstr "C"), ("language", .vstr "en")]),
   ("resource_id", .vstr "res1")]

/-- The same well-formed input without a caller-supplied resource_id, so the
constructor generates the content-and-time hash. -/
def exValidNoIdDict : Val := .vdict
  [("title", .vstr "T"), ("content", .vstr ""), ("author", .vstr "A"),
   ("url", .vstr "http://a.co"), ("publication_date", .vstr "1000"),
   ("metadata", .vdict
     [("keywords", .vlist []), ("category", .vstr "C"), ("language", .vstr "en")])]

/-- An invalid input: the title field is missing, so Resource.from_dict
raises KeyError inside rate_resource. -/
def exInvalidDict : Val := .vdict [("content", .vstr "x")]

/-- Projection of a successful rating outcome, defaulting on errors. -/
def okResource : Except Err Resource → Resource
  | .ok r => r
  | .error _ => default

/-- First rating run of the id-less scenario at time 1000. -/
def c2noIdRun1 : Except Err Resource × CacheState :=
  rateResource simpleExternals defaultMaxBytes emptyCache 1000 "1000.0"
    (.dict exValidNoIdDict) false

/-- The resource the pipeline produces for exValidDict rated at time 1000:
the value the first call of the idempotence scenario computes and caches. -/
def c2ratedLit : Resource :=
  { title := .vstr "T", content := .vstr "", author := .vstr "A",
    url := .vstr "http://a.co", publicationDate := .vtime 1000,
    metadata := .vdict
      [("keywords", .vlist []), ("category", .vstr "c"), ("language", .vstr "en")],
    resourceId := .vstr "res1",
    scores := [("relevance", 0), ("authority", 0), ("engagement", 0), ("clarity", 1),
      ("impact", 0)],
    finalScore := some 1, lastRated := some 1000,
    ratingMetadata :=
      [("content_metrics", .vdict
         [("word_count", .vnum 0), ("keywords", .vlist []),
          ("readability_score", .vnum 0), ("sentence_count", .vnum 0)]),
       ("engagement_metrics", .vdict
         [("interaction_rate", .vnum 0), ("avg_session_time", .vnum 0),
          ("social_impact", .vnum 0)]),
       ("authority_metrics", .vdict
         [("citation_impact", .vnum 0), ("author_expertise", .vnum 0),
          ("domain_authority", .vnum 0), ("overall_authority", .vnum 0)]),
       ("impact_metrics", .vdict
         [("outcome_effectiveness", .vnum 0), ("conversion_impact", .vnum 0),
          ("user_satisfaction", .vnum 0), ("overall_impact", .vnum 0)]),
       ("calculation_timestamp", .vtime 1000), ("review_count", .vnum 0),
       ("score_breakdown", .vdict
         [("relevance", .vnum 0), ("authority", .vnum 0), ("engagement", .vnum 0),
          ("clarity", .vnum 1), ("impact", .vnum 0)])] }

/-- The cache state after that first call: the snapshot of the rated
resource under its identity with the default 24 hour expiry from time
1000. -/
def c2cacheLit : CacheState := ⟨[(.vstr "res1", toDict c2ratedLit, 87400)]⟩

/-- A resource whose rating_metadata already carries the four metric bundles
with the keys _calculate_rating reads, used to exercise the rating step on
its own. -/
def c3res : Resource :=
  { title := .vstr "T", content := .vstr "C", author := .vstr "A",
    url := .vstr "https://example.com", publicationDate := .vstr "1706572800",
    metadata := .vdict [], resourceId := .vstr "rid3", scores := [],
    finalScore := none, lastRated := none,
    ratingMetadata :=
      [("content_metrics", .vdict
         [("keywords", .vlist []), ("word_count", .vnum 0),
          ("readability_score", .vnum 50)]),
       ("authority_metrics", .vdict
         [("citation_impact", .vnum 1), ("author_expertise", .vnum 2)]),
       ("engagement_metrics", .vdict
         [("interaction_rate", .vnum 1), ("avg_session_time", .vnum 1),
          ("social_impact", .vnum 1)]),
       ("impact_metrics", .vdict
         [("outcome_effectiveness", .vnum 1), ("conversion_impact", .vnum 1)])] }

/-- A JSON-parseable cached payload that is not a serialized Resource: the
title field is absent. -/
def c8garbage : Val := .vdict [("garbage", .vnum 1)]

/-- A disk image whose index parses and whose single data file parses as
JSON, but into the garbage payload, recorded under the identity the C8
scenario rates. -/
def c8garbageImage : Option (List (String × DiskEntry)) :=
  some [("res1", ⟨isoformat 10000000, some (some c8garbage)⟩)]

/-- A disk image with a data file that exists but cannot be parsed as JSON:
json.load raises and _load_cache clears the cache. -/
def c8unparseableImage : Option (List (String × DiskEntry)) :=
  some [("res1", ⟨isoformat 10000000, some none⟩)]

/-- A small concrete cache key for the size-bound scenarios. -/
def c7key : Val := .vstr "a"

/-- A concrete cached value whose serialized size, fourteen characters,
exceeds the ten-byte budget used in the size-bound scenarios. -/
def c7val : Val := .vstr "0123456789ab"

instance : IsTotal CacheEntry (fun a b => a.2.2 ≤ b.2.2) :=
  ⟨fun a b => Int.le_total a.2.2 b.2.2⟩

instance : IsTrans CacheEntry (fun a b => a.2.2 ≤ b.2.2) :=
  ⟨fun _ _ _ h1 h2 => le_trans h1 h2⟩

/-! Theorems.  General clamp lemmas first. -/

theorem pymin_le_left (a b : ℚ) : pymin a b ≤ a := by
  unfold pymin; split <;> linarith

theorem pymin_nonneg {a b : ℚ} (ha : 0 ≤ a) (hb : 0 ≤ b) : 0 ≤ pymin a b := by
  unfold pymin; split <;> linarith

theorem one_le_ten_clamp (x : ℚ) : 1 ≤ pymin 10.0 (pymax 1.0 x) := by
  unfold pymin pymax; split <;> split <;> simp_all <;> linarith

theorem ten_clamp_le_ten (x : ℚ) : pymin 10.0 x ≤ 10.0 := by
  unfold pymin; split <;> linarith

theorem zero_le_pymax_zero (x : ℚ) : 0 ≤ pymax 0.0 x := by
  unfold pymax; split <;> simp_all <;> linarith

theorem pymax_zero_pymin_ten_le (x : ℚ) : pymax 0.0 (pymin 10.0 x) ≤ 10.0 := by
  unfold pymin pymax; split <;> split <;> simp_all <;> linarith

theorem pymax_pymin_eq_self {x : ℚ} (h1 : 1 ≤ x) (h10 : x ≤ 10.0) :
    pymax 0.0 (pymin 10.0 x) = x := by
  unfold pymin pymax; split <;> split <;> simp_all <;> linarith

/-- Bounds of calculate_final_score: every successful result is clamped into
the unit-to-ten band. -/
theorem calculateFinalScore_bounds {scores : List (String × ℚ)} {reviewCount q : ℚ}
    (h : calculateFinalScore scores reviewCount = .ok q) : 1 ≤ q ∧ q ≤ 10.0 := by
  unfold calculateFinalScore at h
  split at h
  · exact absurd h (by simp)
  · rw [Except.ok.injEq] at h
    exact h ▸ ⟨one_le_ten_clamp _, ten_clamp_le_ten _⟩

/-- Claim C5: the four concrete calculator values: calculate_relevance(5, 10)
is 5.0, calculate_relevance(0, 0) is 0.0, calculate_final_score of all-ten
criteria is 10.0, and calculate_final_score of all-zero criteria is 1.0,
the floor rather than zero. -/
theorem c5_concrete_calculator_values :
    calculateRelevance 5 10 = 5.0 ∧
    calculateRelevance 0 0 = 0.0 ∧
    calculateFinalScore
      [("relevance", 10), ("authority", 10), ("engagement", 10),
       ("clarity", 10), ("impact", 10)] 0 = .ok 10.0 ∧
    calculateFinalScore
      [("relevance", 0), ("authority", 0), ("engagement", 0),
       ("clarity", 0), ("impact", 0)] 0 = .ok 1.0 := by
  refine ⟨by decide, by decide, by decide, by decide⟩

/-- Claim C3, amended: calculate_final_score clamps every successful result
into the one-to-ten band, and the rating pipeline stores such a value as the
final score; Resource.set_final_score, however, clamps its argument into the
zero-to-ten band, so a final score set directly through it is only
guaranteed to be at least 0, not at least 1. -/
theorem c3_final_score_bounds :
    (∀ (scores : List (String × ℚ)) (reviewCount q : ℚ),
       calculateFinalScore scores reviewCount = .ok q → 1 ≤ q ∧ q ≤ 10.0) ∧
    (∀ (r : Resource) (s : ℚ) (md : Option (List (String × Val))) (now : Int),
       ∃ q, (setFinalScore r s md now).finalScore = some q ∧ 0 ≤ q ∧ q ≤ 10.0) ∧
    (∀ (r : Resource) (now : Int) (rated : Resource),
       calculateRating r now = .ok rated →
       ∃ q, rated.finalScore = some q ∧ 1 ≤ q ∧ q ≤ 10.0) := by
  refine ⟨fun scores reviewCount q h => calculateFinalScore_bounds h, ?_, ?_⟩
  · intro r s md now
    refine ⟨pymax 0.0 (pymin 10.0 s), ?_, zero_le_pymax_zero _, pymax_zero_pymin_ten_le _⟩
    unfold setFinalScore
    rcases md with _ | l
    · rfl
    · by_cases hl : l.isEmpty <;> simp [hl]
  · intro r now rated h
    unfold calculateRating at h
    simp only [bind, Except.bind] at h
    repeat' split at h
    all_goals try exact Except.noConfusion h
    next fs hfs =>
      simp only [pure, Except.pure, Except.ok.injEq] at h
      subst h
      have hb := calculateFinalScore_bounds hfs
      refine ⟨fs, ?_, hb.1, hb.2⟩
      simp [setFinalScore, pymax_pymin_eq_self hb.1 hb.2]

/-- Claim C3, counterexample to the claim as stated: set_final_score stores
the value one half unchanged, which is below the claimed minimum of one. -/
theorem c3_set_final_score_below_one :
    (setFinalScore default 0.5 none 0).finalScore = some 0.5 ∧ ¬ (1 ≤ (0.5 : ℚ)) := by
  refine ⟨by decide, by decide⟩

/-- Claim C3, witness: the bounds theorem applied to a concrete successful
final-score computation, a concrete direct set_final_score call, and a
concrete run of the rating step. -/
theorem c3_final_score_bounds_witness :
    (1 ≤ (7.2 : ℚ) ∧ (7.2 : ℚ) ≤ 10.0) ∧
    (∃ q, (setFinalScore default 0.5 none 0).finalScore = some q ∧ 0 ≤ q ∧ q ≤ 10.0) ∧
    (∃ q, (okResource (calculateRating c3res 0)).finalScore = some q ∧
      1 ≤ q ∧ q ≤ 10.0) :=
  ⟨c3_final_score_bounds.1
      [("relevance", 7), ("authority", 7), ("engagement", 7), ("clarity", 7),
       ("impact", 7)] 600 7.2 (by decide),
   c3_final_score_bounds.2.1 default 0.5 none 0,
   c3_final_score_bounds.2.2 c3res 0 (okResource (calculateRating c3res 0)) (by decide)⟩

/-- Claim C4, amended: every per-criterion calculator clamps its result from
above at ten; authority, engagement, clarity and impact return zero for a
non-positive denominator, while relevance returns zero only when
total_keywords equals zero exactly (a negative total is divided by); and the
results are non-negative whenever the numerator inputs are non-negative and,
for relevance, the denominator is non-negative — there is no lower clamp,
so negative inputs can drive a result below zero. -/
theorem c4_calculator_ranges :
    (∀ m t : ℚ, calculateRelevance m t ≤ 10.0) ∧
    (∀ c cr ma : ℚ, calculateAuthority c cr ma ≤ 10.0) ∧
    (∀ i st ss me : ℚ, calculateEngagement i st ss me ≤ 10.0) ∧
    (∀ (rs uf mc : ℚ) (b : Bool), calculateClarity rs uf b mc ≤ 10.0) ∧
    (∀ po tm mi : ℚ, calculateImpact po tm mi ≤ 10.0) ∧
    (∀ c cr ma : ℚ, ma ≤ 0 → calculateAuthority c cr ma = 0.0) ∧
    (∀ i st ss me : ℚ, me ≤ 0 → calculateEngagement i st ss me = 0.0) ∧
    (∀ (rs uf : ℚ) (b : Bool) (mc : ℚ), mc ≤ 0 → calculateClarity rs uf b mc = 0.0) ∧
    (∀ po tm mi : ℚ, mi ≤ 0 → calculateImpact po tm mi = 0.0) ∧
    (∀ m : ℚ, calculateRelevance m 0 = 0.0) ∧
    (∀ m t : ℚ, 0 ≤ m → 0 ≤ t → 0 ≤ calculateRelevance m t) ∧
    (∀ c cr ma : ℚ, 0 ≤ c → 0 ≤ cr → 0 ≤ calculateAuthority c cr ma) ∧
    (∀ i st ss me : ℚ, 0 ≤ i → 0 ≤ st → 0 ≤ ss → 0 ≤ calculateEngagement i st ss me) ∧
    (∀ (rs uf : ℚ) (b : Bool) (mc : ℚ), 0 ≤ rs → 0 ≤ uf → 0 ≤ calculateClarity rs uf b mc) ∧
    (∀ po tm mi : ℚ, 0 ≤ po → 0 ≤ tm → 0 ≤ calculateImpact po tm mi) := by
  have hten : (0 : ℚ) ≤ 10.0 := by norm_num
  refine ⟨?_, ?_, ?_, ?_, ?_, ?_, ?_, ?_, ?_, ?_, ?_, ?_, ?_, ?_, ?_⟩
  · intro m t; unfold calculateRelevance
    split
    · norm_num
    · exact le_trans (pymin_le_left _ _) (by norm_num)
  · intro c cr ma; unfold calculateAuthority
    split
    · norm_num
    · exact le_trans (pymin_le_left _ _) (by norm_num)
  · intro i st ss me; unfold calculateEngagement
    split
    · norm_num
    · exact le_trans (pymin_le_left _ _) (by norm_num)
  · intro rs uf b mc; unfold calculateClarity
    split
    · norm_num
    · exact le_trans (pymin_le_left _ _) (by norm_num)
  · intro po tm mi; unfold calculateImpact
    split
    · norm_num
    · exact le_trans (pymin_le_left _ _) (by norm_num)
  · intro c cr ma hma; unfold calculateAuthority
    rw [if_pos hma]
  · intro i st ss me hme; unfold calculateEngagement
    rw [if_pos hme]
  · intro rs uf b mc hmc; unfold calculateClarity
    rw [if_pos hmc]
  · intro po tm mi hmi; unfold calculateImpact
    rw [if_pos hmi]
  · intro m; unfold calculateRelevance
    rw [if_pos rfl]
  · intro m t hm ht; unfold calculateRelevance
    split
    · norm_num
    · exact pymin_nonneg hten (by positivity)
  · intro c cr ma hc hcr; unfold calculateAuthority
    split
    · norm_num
    · next hma =>
        refine pymin_nonneg hten ?_
        have : (0 : ℚ) < ma := lt_of_not_le hma
        positivity
  · intro i st ss me hi hst hss; unfold calculateEngagement
    split
    · norm_num
    · next hme =>
        refine pymin_nonneg hten ?_
        have h0 : (0 : ℚ) < me := lt_of_not_le hme
        have hnum : (0 : ℚ) ≤ i + st * 2 + ss := by linarith
        positivity
  · intro rs uf b mc hrs huf; unfold calculateClarity
    split
    · norm_num
    · next hmc =>
        refine pymin_nonneg hten ?_
        have h0 : (0 : ℚ) < mc := lt_of_not_le hmc
        have hcta : (0 : ℚ) ≤ (if b then (1 : ℚ) else 0) := by split <;> norm_num
        have hnum : (0 : ℚ) ≤ rs / 100.0 * 5 + uf * 0.5 + (if b then (1 : ℚ) else 0) := by
          have : (0 : ℚ) ≤ rs / 100.0 * 5 := by positivity
          have : (0 : ℚ) ≤ uf * 0.5 := by positivity
          linarith
        positivity
  · intro po tm mi hpo htm; unfold calculateImpact
    split
    · norm_num
    · next hmi =>
        refine pymin_nonneg hten ?_
        have h0 : (0 : ℚ) < mi := lt_of_not_le hmi
        positivity

/-- Claim C4, counterexample to the claim as stated: a negative
total_keywords is not caught by the zero guard, and the result of
calculate_relevance(5, -1) is minus fifty — neither zero (despite the
non-positive denominator) nor within the claimed zero-to-ten band. -/
theorem c4_negative_denominator_escapes :
    ((-1 : ℚ) ≤ 0) ∧ calculateRelevance 5 (-1) = -50 ∧
    ¬ (0 ≤ calculateRelevance 5 (-1)) ∧ calculateRelevance 5 (-1) ≠ 0.0 := by
  refine ⟨by decide, by decide, by decide, by decide⟩

/-- Claim C4, witness: the range theorem applied at concrete inputs,
discharging the guard and non-negativity hypotheses there. -/
theorem c4_calculator_ranges_witness :
    calculateRelevance 3 4 ≤ 10.0 ∧ calculateAuthority 1 2 (-3) = 0.0 ∧
    calculateRelevance 7 0 = 0.0 ∧ 0 ≤ calculateRelevance 3 4 := by
  obtain ⟨h1, _, _, _, _, h6, _, _, _, h10, h11, _⟩ := c4_calculator_ranges
  exact ⟨h1 3 4, h6 1 2 (-3) (by norm_num), h10 7, h11 3 4 (by norm_num) (by norm_num)⟩

set_option maxRecDepth 8000

set_option maxHeartbeats 2000000

/-- Claim C6, amended: the generated identifier is a deterministic function
of title, url and the time() rendering captured at construction — equal
titles, urls and construction times give equal ids — but the hashed string
changes whenever the construction time changes, and the concrete
construction below yields different ids at two different times, so the id is
content-and-time derived rather than a stable content-derived key. -/
theorem c6_generated_id_depends_on_time :
    (∀ (title content author url pubDate metadata : Val) (ts : String),
       (mkResource title content author url pubDate metadata .vnone ts).resourceId =
         .vstr (generateId (pyStr title) (pyStr url) ts)) ∧
    (∀ title url ts ts' : String, ts ≠ ts' → title ++ url ++ ts ≠ title ++ url ++ ts') ∧
    generateId "T1" "https://example.com" "1000.0" ≠
      generateId "T1" "https://example.com" "1000.25" := by
  refine ⟨?_, ?_, by decide⟩
  · intro title content author url pubDate metadata ts
    simp [mkResource, pyTruthy]
  · intro title url ts ts' hne heq
    apply hne
    have hd := congrArg String.data heq
    simp only [String.data_append] at hd
    exact String.ext (List.append_cancel_left hd)

/-- Claim C6, counterexample to the claim as stated: two Resource
constructions from the same title and the same URL, with no caller-supplied
id, performed at times 1000.0 and 1000.25, generate different resource
ids. -/
theorem c6_same_content_different_ids :
    (mkResource (.vstr "T1") (.vstr "C") (.vstr "A") (.vstr "https://example.com")
      (.vstr "1706572800") (.vdict []) .vnone "1000.0").resourceId ≠
    (mkResource (.vstr "T1") (.vstr "C") (.vstr "A") (.vstr "https://example.com")
      (.vstr "1706572800") (.vdict []) .vnone "1000.25").resourceId := by
  decide

/-- Claim C6, witness: the determinism-and-dependence theorem applied at a
concrete construction and a concrete pair of distinct time renderings. -/
theorem c6_generated_id_witness :
    (mkResource (.vstr "T1") (.vstr "C") (.vstr "A") (.vstr "https://example.com")
      (.vstr "1706572800") (.vdict []) .vnone "1000.0").resourceId =
      .vstr (generateId "T1" "https://example.com" "1000.0") ∧
    ("T1" ++ "https://example.com" ++ "1000.0" : String) ≠
      "T1" ++ "https://example.com" ++ "1000.25" :=
  ⟨c6_generated_id_depends_on_time.1 (.vstr "T1") (.vstr "C") (.vstr "A")
      (.vstr "https://example.com") (.vstr "1706572800") (.vdict []) "1000.0",
   c6_generated_id_depends_on_time.2.1 "T1" "https://example.com" "1000.0" "1000.25"
      (by decide)⟩

/-- Claim C10: update_score stamps last_rated with the rating time, leaves
final_score untouched, and the resource is therefore reported fresh by
is_stale under the default 24 hour window at any check time within 86400
seconds — even when final_score is still absent and the scores map is only
partially populated. -/
theorem c10_update_score_refreshes :
    ∀ (r : Resource) (criterion : String) (score : ℚ) (now now' : Int),
      (updateScore r criterion score now).lastRated = some now ∧
      (updateScore r criterion score now).finalScore = r.finalScore ∧
      (now' - now ≤ 86400 → isStale (updateScore r criterion score now) 24 now' = false) := by
  intro r criterion score now now'
  refine ⟨rfl, rfl, fun h => ?_⟩
  simp only [isStale, updateScore]
  simp only [decide_eq_false_iff_not]
  omega

/-- Claim C10, witness: the freshness theorem applied to a concrete resource
with no final score, rated at time 0 and checked at time 100. -/
theorem c10_update_score_refreshes_witness :
    (updateScore default "relevance" 5 0).lastRated = some 0 ∧
    (updateScore default "relevance" 5 0).finalScore = (default : Resource).finalScore ∧
    isStale (updateScore default "relevance" 5 0) 24 100 = false :=
  ⟨(c10_update_score_refreshes default "relevance" 5 0 100).1,
   (c10_update_score_refreshes default "relevance" 5 0 100).2.1,
   (c10_update_score_refreshes default "relevance" 5 0 100).2.2 (by omega)⟩

theorem cacheSizeOf_cons (e : CacheEntry) (l : List CacheEntry) :
    cacheSizeOf (e :: l) = jsonSize e.2.1 + cacheSizeOf l := by
  simp [cacheSizeOf]

theorem evict_append (maxB : Nat) :
    ∀ (l : List CacheEntry) (s : Int),
      evictPrefix maxB l s ++ evictSuffix maxB l s = l
  | [], s => rfl
  | e :: rest, s => by
      by_cases h : s > (maxB : Int) <;>
        simp [evictPrefix, evictSuffix, h, evict_append maxB rest (s - jsonSize e.2.1)]

theorem evictSuffix_size_le (maxB : Nat) :
    ∀ (l : List CacheEntry) (s : Int), s = (cacheSizeOf l : Int) →
      cacheSizeOf (evictSuffix maxB l s) ≤ maxB
  | [], s, _ => by simp [evictSuffix, cacheSizeOf]
  | e :: rest, s, hs => by
      by_cases h : s > (maxB : Int)
      · rw [evictSuffix, if_pos h]
        refine evictSuffix_size_le maxB rest (s - jsonSize e.2.1) ?_
        rw [hs, cacheSizeOf_cons]
        push_cast
        ring
      · rw [evictSuffix, if_neg h]
        have : (cacheSizeOf (e :: rest) : Int) ≤ (maxB : Int) := by
          rw [← hs]; exact le_of_not_lt h
        exact_mod_cast this

theorem mem_entrySet_self : ∀ (l : List CacheEntry) (k v : Val) (e : Int),
    (k, v, e) ∈ entrySet l k v e
  | [], k, v, e => by simp [entrySet]
  | (k', v', e') :: rest, k, v, e => by
      unfold entrySet
      split
      · exact List.mem_cons_self _ _
      · exact List.mem_cons_of_mem _ (mem_entrySet_self rest k v e)

theorem mem_keys_entrySet : ∀ (l : List CacheEntry) (k v : Val) (e : Int) (a : Val),
    a ∈ (entrySet l k v e).map (·.1) → a = k ∨ a ∈ l.map (·.1)
  | [], k, v, e, a => by simp [entrySet]
  | (k', v', e') :: rest, k, v, e, a => by
      unfold entrySet
      split
      · next heq => simp_all
      · intro ha
        simp only [List.map_cons, List.mem_cons] at ha ⊢
        rcases ha with h | h
        · exact Or.inr (Or.inl h)
        · rcases mem_keys_entrySet rest k v e a h with h2 | h2
          · exact Or.inl h2
          · exact Or.inr (Or.inr h2)

theorem entrySet_keys_nodup : ∀ (l : List CacheEntry) (k v : Val) (e : Int),
    (l.map (·.1)).Nodup → ((entrySet l k v e).map (·.1)).Nodup
  | [], k, v, e, _ => by simp [entrySet]
  | (k', v', e') :: rest, k, v, e, h => by
      simp only [List.map_cons, List.nodup_cons] at h
      unfold entrySet
      split
      · next heq =>
          subst heq
          simp only [List.map_cons, List.nodup_cons]
          exact h
      · next hne =>
          simp only [List.map_cons, List.nodup_cons]
          refine ⟨?_, entrySet_keys_nodup rest k v e h.2⟩
          intro hmem
          rcases mem_keys_entrySet rest k v e k' hmem with h2 | h2
          · exact hne h2
          · exact h.1 h2

theorem lookupEntry_filter_removed (removed : List Val) (k : Val)
    (hk : removed.contains k = true) :
    ∀ l : List CacheEntry,
      lookupEntry (l.filter (fun e => !(removed.contains e.1))) k = none
  | [] => rfl
  | e :: rest => by
      by_cases hp : removed.contains e.1
      · simp only [List.filter_cons, hp, Bool.not_true, if_neg]
        · exact lookupEntry_filter_removed removed k hk rest
      · simp only [List.filter_cons, hp, Bool.not_false, if_pos]
        rw [lookupEntry]
        have hne : e.1 ≠ k := fun heq => hp (heq ▸ hk)
        rw [if_neg hne]
        exact lookupEntry_filter_removed removed k hk rest

theorem sortByExpiry_perm (l : List CacheEntry) : (sortByExpiry l).Perm l :=
  List.perm_insertionSort _ l

theorem cleanup_split (maxB : Nat) (l : List CacheEntry)
    (hwf : (l.map (·.1)).Nodup) :
    ((l.filter (fun e =>
        !(((evictPrefix maxB (sortByExpiry l) (cacheSizeOf l)).map (·.1)).contains e.1))).Perm
      (evictSuffix maxB (sortByExpiry l) (cacheSizeOf l))) ∧
    (∀ e ∈ evictPrefix maxB (sortByExpiry l) (cacheSizeOf l),
      ∀ e' ∈ evictSuffix maxB (sortByExpiry l) (cacheSizeOf l), e.2.2 ≤ e'.2.2) ∧
    evictPrefix maxB (sortByExpiry l) (cacheSizeOf l) ++
      evictSuffix maxB (sortByExpiry l) (cacheSizeOf l) = sortByExpiry l := by
  set sorted := sortByExpiry l with hsortdef
  set pre := evictPrefix maxB sorted (cacheSizeOf l) with hpredef
  set suf := evictSuffix maxB sorted (cacheSizeOf l) with hsufdef
  have hp : sorted.Perm l := sortByExpiry_perm l
  have hps : pre ++ suf = sorted := evict_append maxB sorted (cacheSizeOf l)
  have hkeys : ((pre ++ suf).map (·.1)).Nodup := by
    rw [hps]; exact ((hp.map (·.1)).nodup_iff).mpr hwf
  rw [List.map_append, List.nodup_append] at hkeys
  obtain ⟨hnp, hns, hdisj⟩ := hkeys
  refine ⟨?_, ?_, hps⟩
  · have h1 : (l.filter (fun e => !((pre.map (·.1)).contains e.1))).Perm
        (sorted.filter (fun e => !((pre.map (·.1)).contains e.1))) :=
      (hp.filter _).symm
    have h2 : sorted.filter (fun e => !((pre.map (·.1)).contains e.1)) =
        pre.filter (fun e => !((pre.map (·.1)).contains e.1)) ++
        suf.filter (fun e => !((pre.map (·.1)).contains e.1)) := by
      rw [← hps, List.filter_append]
    have h3 : pre.filter (fun e => !((pre.map (·.1)).contains e.1)) = [] := by
      rw [List.filter_eq_nil_iff]
      intro e he
      have hmem : e.1 ∈ pre.map (·.1) := List.mem_map_of_mem _ he
      have hc : (pre.map (·.1)).contains e.1 = true := by
        rw [List.contains]; exact List.elem_iff.mpr hmem
      rw [hc]
      decide
    have h4 : suf.filter (fun e => !((pre.map (·.1)).contains e.1)) = suf := by
      rw [List.filter_eq_self]
      intro e he
      have hmem : e.1 ∈ suf.map (·.1) := List.mem_map_of_mem _ he
      have hnot : e.1 ∉ pre.map (·.1) := fun hin => hdisj hin hmem
      have hc : (pre.map (·.1)).contains e.1 = false := by
        rw [List.contains]
        cases hcc : List.elem e.1 (pre.map (·.1))
        · rfl
        · exact absurd (List.elem_iff.mp hcc) hnot
      rw [hc]
      decide
    rw [h2, h3, h4] at h1
    simpa using h1
  · have hsort : List.Sorted (fun a b : CacheEntry => a.2.2 ≤ b.2.2) sorted :=
      List.sorted_insertionSort _ l
    rw [← hps] at hsort
    exact fun e he e' he' => (List.pairwise_append.mp hsort).2.2 e he e' he'

/-- Claim C7: after any set call, the aggregate serialized size of the cache
is at or under the byte budget; every entry evicted by the accompanying
cleanup expires no later than every surviving entry (eviction removes a
prefix of the ascending-expiry order); and whenever the freshly written dict
exceeded the budget, some entry that was present immediately after the write
is no longer retrievable. -/
theorem c7_cache_size_bound_and_eviction :
    ∀ (maxB : Nat) (s : CacheState) (k v : Val) (now : Int), cacheWF s →
      getCacheSize (cacheSet maxB s k v now 24) ≤ maxB ∧
      (∀ e, e ∈ entrySet s.entries k v (now + 24 * 3600) →
        e ∉ (cacheSet maxB s k v now 24).entries →
        ∀ e', e' ∈ (cacheSet maxB s k v now 24).entries → e.2.2 ≤ e'.2.2) ∧
      ((cacheSizeOf (entrySet s.entries k v (now + 24 * 3600)) : Int) > (maxB : Int) →
        ∃ key, (∃ v' exp, (key, v', exp) ∈ entrySet s.entries k v (now + 24 * 3600)) ∧
          (cacheGet (cacheSet maxB s k v now 24) key now).1 = none) := by
  intro maxB s k v now hwf
  set post := entrySet s.entries k v (now + 24 * 3600) with hpostdef
  have hwfpost : (post.map (·.1)).Nodup := entrySet_keys_nodup _ _ _ _ hwf
  have hset : cacheSet maxB s k v now 24 = cleanupOldCache maxB ⟨post⟩ := rfl
  rw [hset]
  unfold cleanupOldCache
  by_cases hov : ((cacheSizeOf post : Int) > (maxB : Int))
  · simp only [hov, if_pos, getCacheSize]
    obtain ⟨hperm, hcross, hsplit⟩ := cleanup_split maxB post hwfpost
    set sorted := sortByExpiry post with hsorteddef
    set pre := evictPrefix maxB sorted (cacheSizeOf post) with hpredef
    set suf := evictSuffix maxB sorted (cacheSizeOf post) with hsufdef
    have hp : sorted.Perm post := sortByExpiry_perm post
    have hszsorted : cacheSizeOf sorted = cacheSizeOf post := by
      simpa [cacheSizeOf] using (hp.map (fun e => jsonSize e.2.1)).sum_eq
    have hkeys : ((pre ++ suf).map (·.1)).Nodup := by
      rw [hsplit]; exact ((hp.map (·.1)).nodup_iff).mpr hwfpost
    rw [List.map_append, List.nodup_append] at hkeys
    obtain ⟨hnp, hns, hdisj⟩ := hkeys
    refine ⟨?_, ?_, ?_⟩
    · have h1 : cacheSizeOf (post.filter (fun e => !((pre.map (·.1)).contains e.1))) =
          cacheSizeOf suf := by
        simpa [cacheSizeOf] using (hperm.map (fun e => jsonSize e.2.1)).sum_eq
      rw [h1]
      exact evictSuffix_size_le maxB sorted (cacheSizeOf post) (by rw [hszsorted])
    · intro e he henot e' he'
      have hpe : ¬ ((fun e => !((pre.map (·.1)).contains e.1)) e = true) := by
        intro hcontra
        exact henot (List.mem_filter.mpr ⟨he, hcontra⟩)
      have hcont : (pre.map (·.1)).contains e.1 = true := by
        cases hcc : (pre.map (·.1)).contains e.1
        · exact absurd (show (fun e => !((pre.map (·.1)).contains e.1)) e = true by
            show (!((pre.map (·.1)).contains e.1)) = true
            rw [hcc]
            rfl) hpe
        · rfl
      have hekey : e.1 ∈ pre.map (·.1) := by
        rw [List.contains] at hcont; exact List.elem_iff.mp hcont
      have hesorted : e ∈ sorted := hp.mem_iff.mpr he
      rw [← hsplit] at hesorted
      rcases List.mem_append.mp hesorted with hepre | hesuf
      · have he'suf : e' ∈ suf := hperm.mem_iff.mp he'
        exact hcross e hepre e' he'suf
      · exact absurd hekey (fun hin => hdisj hin (List.mem_map_of_mem _ hesuf))
    · intro _
      have hpostne : post ≠ [] := by
        intro hnil
        rw [hnil] at hov
        simp [cacheSizeOf] at hov
        omega
      have hsortne : sorted ≠ [] := by
        intro hnil
        exact hpostne (List.Perm.eq_nil (hnil ▸ hp.symm))
      obtain ⟨a, as, hsa⟩ := List.exists_cons_of_ne_nil hsortne
      have hapre : a ∈ pre := by
        rw [hpredef, hsa, evictPrefix, if_pos (by rw [← hszsorted, hsa] at hov ⊢; exact hov)]
        exact List.mem_cons_self _ _
      have hapost : a ∈ post := hp.mem_iff.mp (by rw [hsa]; exact List.mem_cons_self _ _)
      refine ⟨a.1, ⟨a.2.1, a.2.2, by simpa using hapost⟩, ?_⟩
      have hcont : ((pre.map (·.1)).contains a.1) = true := by
        rw [List.contains]
        exact List.elem_iff.mpr (List.mem_map_of_mem _ hapre)
      have hlook := lookupEntry_filter_removed (pre.map (·.1)) a.1 hcont post
      simp only [List.contains] at hlook
      simp at hlook
      simp [cacheGet, hlook]
  · simp only [hov, if_neg, getCacheSize]
    refine ⟨?_, ?_, ?_⟩
    · have : (cacheSizeOf post : Int) ≤ (maxB : Int) := le_of_not_lt hov
      exact_mod_cast this
    · intro e he henot
      exact absurd he henot
    · intro hcontra
      exact hcontra.elim

/-- Claim C9: a value whose serialized size alone exceeds the byte budget is
itself evicted by the cleanup that set triggers, so a get of the key just
written returns absent. -/
theorem c9_oversized_value_not_retrievable :
    ∀ (maxB : Nat) (s : CacheState) (k v : Val) (now : Int), cacheWF s →
      jsonSize v > maxB →
      (cacheGet (cacheSet maxB s k v now 24) k now).1 = none := by
  intro maxB s k v now hwf hbig
  set post := entrySet s.entries k v (now + 24 * 3600) with hpostdef
  have hwfpost : (post.map (·.1)).Nodup := entrySet_keys_nodup _ _ _ _ hwf
  have hmem : (k, v, now + 24 * 3600) ∈ post := mem_entrySet_self _ _ _ _
  have hszmem : jsonSize v ∈ post.map (fun e => jsonSize e.2.1) := by
    have := List.mem_map_of_mem (fun e : CacheEntry => jsonSize e.2.1) hmem
    simpa using this
  have hsz : jsonSize v ≤ cacheSizeOf post :=
    List.single_le_sum (fun x _ => Nat.zero_le x) _ hszmem
  have hov : (cacheSizeOf post : Int) > (maxB : Int) := by
    have : maxB < jsonSize v := hbig
    exact_mod_cast lt_of_lt_of_le this hsz
  have hset : cacheSet maxB s k v now 24 = cleanupOldCache maxB ⟨post⟩ := rfl
  rw [hset]
  unfold cleanupOldCache
  simp only [hov, if_pos]
  obtain ⟨hperm, hcross, hsplit⟩ := cleanup_split maxB post hwfpost
  set sorted := sortByExpiry post with hsorteddef
  set pre := evictPrefix maxB sorted (cacheSizeOf post) with hpredef
  set suf := evictSuffix maxB sorted (cacheSizeOf post) with hsufdef
  have hp : sorted.Perm post := sortByExpiry_perm post
  have hszsorted : cacheSizeOf sorted = cacheSizeOf post := by
    simpa [cacheSizeOf] using (hp.map (fun e => jsonSize e.2.1)).sum_eq
  have hcont : ((pre.map (·.1)).contains k) = true := by
    cases hcc : ((pre.map (·.1)).contains k)
    · exfalso
      have hknot : k ∉ pre.map (·.1) := by
        intro hin
        have : (pre.map (·.1)).contains k = true := by
          rw [List.contains]; exact List.elem_iff.mpr hin
        rw [hcc] at this
        exact Bool.noConfusion this
      have hesorted : (k, v, now + 24 * 3600) ∈ sorted := hp.mem_iff.mpr hmem
      rw [← hsplit] at hesorted
      rcases List.mem_append.mp hesorted with hepre | hesuf
      · exact hknot (by simpa using List.mem_map_of_mem (fun e : CacheEntry => e.1) hepre)
      · have hsufsz : jsonSize v ≤ cacheSizeOf suf := by
          refine List.single_le_sum (fun x _ => Nat.zero_le x) _ ?_
          simpa using List.mem_map_of_mem (fun e : CacheEntry => jsonSize e.2.1) hesuf
        have hsufle : cacheSizeOf suf ≤ maxB :=
          evictSuffix_size_le maxB sorted (cacheSizeOf post) (by rw [hszsorted])
        omega
    · rfl
  have hlook := lookupEntry_filter_removed (pre.map (·.1)) k hcont post
  simp only [List.contains] at hlook
  simp at hlook
  simp [cacheGet, hlook]

/-- Claim C7, witness: the size-bound theorem applied to an empty cache with
a ten-byte budget receiving a fourteen-byte value, discharging the
well-formedness and overflow hypotheses there. -/
theorem c7_cache_size_bound_witness :
    getCacheSize (cacheSet 10 emptyCache c7key c7val 0 24) ≤ 10 ∧
    ∃ key, (∃ v' exp, (key, v', exp) ∈ entrySet emptyCache.entries c7key c7val (0 + 24 * 3600)) ∧
      (cacheGet (cacheSet 10 emptyCache c7key c7val 0 24) key 0).1 = none := by
  have h := c7_cache_size_bound_and_eviction 10 emptyCache c7key c7val 0 (by simp [cacheWF, emptyCache])
  exact ⟨h.1, h.2.2 (by decide)⟩

/-- Claim C9, witness: the oversized-value theorem applied to an empty cache
with a ten-byte budget receiving a fourteen-byte value. -/
theorem c9_oversized_value_witness :
    (cacheGet (cacheSet 10 emptyCache c7key c7val 0 24) c7key 0).1 = none :=
  c9_oversized_value_not_retrievable 10 emptyCache c7key c7val 0 (by simp [cacheWF, emptyCache]) (by decide)

theorem loadEntries_none_of_unparseable :
    ∀ (idx : List (String × DiskEntry)) (now : Int),
      (∃ e ∈ idx, e.2.file = some none) → loadEntries now idx = none
  | [], _, h => by simp at h
  | (k, de) :: rest, now, h => by
      unfold loadEntries
      rcases h with ⟨e, he, hef⟩
      rcases List.mem_cons.mp he with heq | htail
      · subst heq
        rw [hef]
      · have htl := loadEntries_none_of_unparseable rest now ⟨e, htail, hef⟩
        cases hf : de.file with
        | none => exact htl
        | some fo =>
            cases fo with
            | none => rfl
            | some v =>
                cases hiso : fromIsoVal de.expiry with
                | error _ => rfl
                | ok exp =>
                    by_cases hexp : exp > now <;> simp [hexp, htl]

/-- Claim C8, amended: corruption at the serialization level is contained —
an unreadable index, or any entry whose data file exists but cannot be
parsed, makes the loader clear the whole cache, every lookup then misses,
and rate_resource recomputes from scratch exactly as with an empty cache;
but a cached snapshot that parses as JSON without being a serialized
Resource is served from the cache check, where Resource.from_dict raises
outside the try block, as the counterexample shows. -/
theorem c8_serialization_corruption_contained :
    (∀ now : Int, loadCache none now = emptyCache) ∧
    (∀ (idx : List (String × DiskEntry)) (now : Int),
       (∃ e ∈ idx, e.2.file = some none) → loadCache (some idx) now = emptyCache) ∧
    (∀ (k : Val) (now : Int), (cacheGet emptyCache k now).1 = none) ∧
    loadCache c8unparseableImage 1000 = emptyCache ∧
    (rateResource simpleExternals defaultMaxBytes (loadCache c8unparseableImage 1000)
        1000 "1000.0" (.dict exValidDict) false).1.isOk = true := by
  refine ⟨fun _ => rfl, ?_, fun _ _ => rfl, rfl, ?_⟩
  · intro idx now h
    have hl := loadEntries_none_of_unparseable idx now h
    unfold loadCache
    simp only [hl]
  · decide

/-- Claim C8, counterexample to the claim as stated: a cached snapshot that
deserializes as JSON but is not a Resource dict (the title field is absent)
reaches Resource.from_dict during the cache check of rate_resource, outside
its try block, and the KeyError propagates to the caller instead of being
treated as a cache miss. -/
theorem c8_parseable_garbage_propagates :
    (rateResource simpleExternals defaultMaxBytes (loadCache c8garbageImage 1000)
      1000 "1000.0" (.dict exValidDict) false).1 = .error (.keyError "title") := by
  rfl

/-- Claim C8, witness: the containment theorem applied to a concrete
corrupted index entry, discharging the existence hypothesis there. -/
theorem c8_serialization_corruption_witness :
    loadCache (some [("res1", ⟨isoformat 0, some none⟩)]) 5 = emptyCache :=
  c8_serialization_corruption_contained.2.1 [("res1", ⟨isoformat 0, some none⟩)] 5
    ⟨("res1", ⟨isoformat 0, some none⟩), by simp, rfl⟩

/-- Claim C1, amended: a failure inside bulk_rate_resources is caught and
logged, and the method itself returns normally for every positive batch
size; but the failure handler sits around the whole chunk loop, so a
failure abandons only the remainder of its own chunk, and later chunks are
still processed: with batch size one, an invalid input followed by a valid
input in the next chunk still yields the valid rating together with one
logged failure, and two invalid inputs in their own chunks before a valid
one yield the valid rating and two logged failures. -/
theorem c1_bulk_chunk_failure_isolation :
    (∀ (ext : Externals) (maxB : Nat) (resources : List RInput) (bs : Nat)
       (c : CacheState) (now : Int) (ts : String), bs ≠ 0 →
       ∃ out, bulkRateResources ext maxB resources bs c now ts = .ok out) ∧
    (bulkRateResources simpleExternals defaultMaxBytes
       [.dict exInvalidDict, .dict exValidDict] 1
       emptyCache 1000 "1000.0").map (fun out => (out.1.length, out.2.2)) = .ok (1, 1) ∧
    (bulkRateResources simpleExternals defaultMaxBytes
       [.dict exInvalidDict, .dict exInvalidDict, .dict exValidDict] 1
       emptyCache 1000 "1000.0").map (fun out => (out.1.length, out.2.2)) = .ok (1, 2) := by
  refine ⟨?_, by decide, by decide⟩
  intro ext maxB resources bs c now ts hbs
  unfold bulkRateResources
  rw [if_neg hbs]
  exact ⟨_, rfl⟩

/-- Claim C1, counterexample to the claim as stated: with the default batch
size, one chunk holds a valid input, an invalid input and two more valid
inputs; the caught failure abandons the rest of the chunk, so only one
resource is returned where the claim promises exactly three. -/
theorem c1_mid_chunk_failure_skips_rest :
    (bulkRateResources simpleExternals defaultMaxBytes
      [.dict exValidDict, .dict exInvalidDict, .dict exValidDict, .dict exValidDict] 10
      emptyCache 1000 "1000.0").map (fun out => (out.1.length, out.2.2)) = .ok (1, 1) ∧
    (1 : Nat) ≠ 3 := by
  exact ⟨by decide, by decide⟩

/-- Claim C1, witness: the chunk-isolation theorem applied at a concrete
positive batch size, discharging the batch-size hypothesis there. -/
theorem c1_bulk_witness :
    ∃ out, bulkRateResources simpleExternals defaultMaxBytes [.dict exInvalidDict] 10
      emptyCache 1000 "1000.0" = .ok out :=
  c1_bulk_chunk_failure_isolation.1 simpleExternals defaultMaxBytes [.dict exInvalidDict]
    10 emptyCache 1000 "1000.0" (by decide)

/-- Serialization of a resource is a truthy (non-empty) dict. -/
theorem toDict_truthy (r : Resource) : pyTruthy (toDict r) = true := rfl

/-- Entry-wise inverse of the scores rendering performed by toDict. -/
theorem asScores_go_roundtrip :
    ∀ l : List (String × ℚ),
      asScores.go (l.map (fun p => (p.1, Val.vnum p.2))) = .ok l
  | [] => rfl
  | (k, q) :: rest => by
      simp [asScores.go, asScores_go_roundtrip rest, Except.map]

/-- Coercing a rendered scores dict recovers the original score list. -/
theorem asScores_roundtrip (l : List (String × ℚ)) :
    asScores (.vdict (l.map (fun p => (p.1, Val.vnum p.2)))) = .ok l := by
  simp [asScores, asScores_go_roundtrip l]

/-- When a cache lookup produces a value, the lookup was a fresh hit and the
cache state is returned unchanged. -/
theorem cacheGet_hit {s : CacheState} {k : Val} {now : Int} {v : Val}
    (h : (cacheGet s k now).1 = some v) : cacheGet s k now = (some v, s) := by
  unfold cacheGet at h ⊢
  cases hl : lookupEntry s.entries k with
  | none => simp [hl] at h
  | some ve =>
      obtain ⟨v', exp⟩ := ve
      rw [hl] at h
      by_cases hexp : exp > now
      · simp only [hexp, ite_true] at h ⊢
        simp at h
        rw [h]
      · simp [hexp] at h

/-- Deserializing the serialization of a resource with a truthy identity
recovers the resource exactly, for any construction time string: the id is
truthy, so the time-dependent branch of the constructor is not taken. -/
theorem fromDict_toDict (r : Resource) (ts : String)
    (h : pyTruthy r.resourceId = true) : fromDict (toDict r) ts = .ok r := by
  obtain ⟨t, c, a, u, p, m, rid, sc, fs, lr, rm⟩ := r
  simp only [Resource.resourceId] at h
  unfold toDict fromDict
  simp only [pyIndex, dget, dgetD, hasKey, mkResource, bind, Except.bind, pure, Except.pure]
  simp [h, asScores_roundtrip, asMetaDict, asFinalScore]
  rcases fs with _ | q <;> rcases lr with _ | tv <;>
    simp [asFinalScore, fromIsoVal, pyTruthy, isoformat]

/-- Claim C2, amended: when the cache holds a fresh snapshot of a resource
under the identity the input deserializes to, rate_resource without
force_refresh serves exactly the cached resource and leaves the cache
unchanged: no validation, metrics gathering, scoring or cache write is
performed.  The idempotence part of the claim as stated holds only for
inputs carrying their own resource_id: an id-less input is given a
time-dependent generated id, so a second construction at a different time
misses the cache (see the counterexample). -/
theorem c2_cache_hit_served_unchanged (ext : Externals) (maxB : Nat)
    (c : CacheState) (now : Int) (ts : String) (d : Val) (r0 r : Resource)
    (hfd : fromDict d ts = .ok r0)
    (hhit : (cacheGet c r0.resourceId now).1 = some (toDict r))
    (htruthy : pyTruthy r.resourceId = true)
    (hfresh : isStale r 24 now = false) :
    rateResource ext maxB c now ts (.dict d) false = (.ok r, c) := by
  have hcg := cacheGet_hit hhit
  have hrt := fromDict_toDict r ts htruthy
  unfold rateResource
  simp only [hfd, hcg, toDict_truthy, hrt, hfresh]
  simp

/-- Claim C2, witness: the cache-hit theorem applied to the concrete cache
state produced by a first rating of exValidDict at time 1000, queried again
at time 2000 with the same input: the second call returns the cached rated
resource with bit-identical scores and id, and the cache is unchanged. -/
theorem c2_cache_hit_witness :
    rateResource simpleExternals defaultMaxBytes c2cacheLit 2000 "2000.0"
        (.dict exValidDict) false = (.ok c2ratedLit, c2cacheLit) :=
  c2_cache_hit_served_unchanged simpleExternals defaultMaxBytes c2cacheLit 2000 "2000.0"
    exValidDict
    { title := .vstr "T", content := .vstr "", author := .vstr "A",
      url := .vstr "http://a.co", publicationDate := .vstr "1000",
      metadata := .vdict
        [("keywords", .vlist []), ("category", .vstr "C"), ("language", .vstr "en")],
      resourceId := .vstr "res1", scores := [], finalScore := none,
      lastRated := none, ratingMetadata := [] }
    c2ratedLit (by decide) (by decide) (by decide) (by decide)

/-- Claim C2, counterexample to the claim as stated: an input without a
caller-supplied resource_id receives a time-dependent generated id, so two
constructions of the same unchanged input at times 1000.0 and 2000.25 carry
different ids, and the second call's cache lookup misses the entry the
first call stored: the second call is not served from the cache and does
not return the same resource_id. -/
theorem c2_time_dependent_id_defeats_cache :
    (fromDict exValidNoIdDict "1000.0").map (fun r => r.resourceId)
        = .ok (.vstr "53343205daeae679") ∧
    (fromDict exValidNoIdDict "2000.25").map (fun r => r.resourceId)
        = .ok (.vstr "7d013454b3f60ac2") ∧
    Val.vstr "53343205daeae679" ≠ Val.vstr "7d013454b3f60ac2" ∧
    (cacheGet ⟨[(.vstr "53343205daeae679", toDict c2ratedLit, 87400)]⟩
        (.vstr "7d013454b3f60ac2") 2000).1 = none := by
  refine ⟨by decide, by decide, by decide, by decide⟩

end RatingApp
